import Mathlib

/-!
The raffle contract (src/raffle.cpp)

A shallow embedding of the EOSIO contract `raffle` and a verification of its
specification.

* The two `multi_index` tables are lists of rows in insertion order.  Only the
  operations the contract calls are embedded (`find`, `emplace`, `modify`,
  `erase`, `available_primary_key`), with the behaviour of the EOSIO contract
  library: the next key is the largest key plus one (0 for an empty table) and
  storing a row under a key that is present aborts the transaction.
* Machine integers are `Nat` and `Int`; arithmetic that can leave the range of
  its C++ type is reduced explicitly (`wrap32`, `wrap64`, `% 4294967296`).
* `eosio::check` aborts the transaction: every action returns
  `Except String _`, the error carrying the message of the failing check, and
  a failing action leaves the store as it was (`exec`).
* The value drawn by `Random::nextInRange` is an input (`shuffled`) of
  `shuffle`: the random source is outside the contract.
-/

namespace raffle

/-! ## Library types: names, symbols, assets -/

/-- An account name (`eosio::name`), a 64-bit value. -/
abbrev name := Nat

/-- A token symbol (`eosio::symbol`): code and precision. -/
structure symbol where
  code : String
  precision : Nat
deriving DecidableEq, Repr

/-- A token quantity (`eosio::asset`); `amount` is an `int64_t`. -/
structure asset where
  amount : Int
  symbol : symbol
deriving DecidableEq, Repr

/-- Two's complement reduction to `int32_t`. -/
def wrap32 (x : Int) : Int := (x + 2147483648) % 4294967296 - 2147483648

/-- Two's complement reduction to `int64_t`. -/
def wrap64 (x : Int) : Int :=
  (x + 9223372036854775808) % 18446744073709551616 - 9223372036854775808

/-- Conversion of a signed integer to `uint64_t`. -/
def to_uint64 (x : Int) : Nat := (x % 18446744073709551616).toNat

/-- The constant `asset::max_amount`, `2^62 - 1`. -/
def max_amount : Int := 4611686018427387903

/-- The test `asset::is_amount_within_range`. -/
def is_amount_within_range (a : Int) : Bool :=
  decide (-max_amount ≤ a) && decide (a ≤ max_amount)

/-- The constructor `asset(a, s)` for a valid symbol `s`: it checks the range
of the amount. -/
def asset_new (a : Int) (s : symbol) : Except String asset :=
  if is_amount_within_range a then .ok { amount := a, symbol := s }
  else .error "magnitude of asset amount must be less than 2^62"

/-- The operator `a += b` of `asset`. -/
def asset_add (a b : asset) : Except String asset :=
  if ¬ (b.symbol = a.symbol) then .error "attempt to add asset with different symbol"
  else
    let amount := wrap64 (a.amount + b.amount)
    if ¬ (-max_amount ≤ amount) then .error "addition underflow"
    else if ¬ (amount ≤ max_amount) then .error "addition overflow"
    else .ok { a with amount := amount }

/-- The operator `a - b` of `asset`. -/
def asset_sub (a b : asset) : Except String asset :=
  if ¬ (b.symbol = a.symbol) then .error "attempt to subtract asset with different symbol"
  else
    let amount := wrap64 (a.amount - b.amount)
    if ¬ (-max_amount ≤ amount) then .error "subtraction underflow"
    else if ¬ (amount ≤ max_amount) then .error "subtraction overflow"
    else .ok { a with amount := amount }

/-- The operator `a >= b` of `asset`. -/
def asset_ge (a b : asset) : Except String Bool :=
  if ¬ (a.symbol = b.symbol) then
    .error "comparison of assets with different symbols is not allowed"
  else .ok (decide (a.amount ≥ b.amount))

/-! ## The C library function `atoi` -/

/-- The test `isspace` on a character. -/
def isspace (c : Char) : Bool := c.toNat == 32 || (9 ≤ c.toNat && c.toNat ≤ 13)

/-- The test `isdigit` on a character. -/
def isdigit (c : Char) : Bool := 48 ≤ c.toNat && c.toNat ≤ 57

/-- The digit loop of `atoi`: the value is accumulated as a negative `int`. -/
def atoi_digits : List Char → Int → Int
  | [], n => n
  | c :: cs, n =>
    if isdigit c then atoi_digits cs (wrap32 (10 * n - ((c.toNat : Int) - 48))) else n

/-- The function `atoi`: leading white space, an optional sign, then the longest
run of decimal digits; anything after it is ignored and no digit at all
gives 0. -/
def atoi (s : String) : Int :=
  match s.data.dropWhile isspace with
  | [] => 0
  | c :: cs =>
    if c.toNat = 45 then atoi_digits cs 0
    else if c.toNat = 43 then wrap32 (- atoi_digits cs 0)
    else wrap32 (- atoi_digits (c :: cs) 0)

/-! ## Tables -/

/-- A row of the table `raffle.d`. -/
structure raffletb where
  id : Nat
  seats : Nat
  allocated_seats : Nat
  seat_price : asset
  require_max_seats_allocated : Bool
  comission_basis_point : Nat
  comission_payer : name
  funds : asset
  winner : Option name
deriving DecidableEq, Repr

/-- A row of the table `seats.d`. -/
structure seatstb where
  id : Nat
  account : name
deriving DecidableEq, Repr

/-- The table `raffle.d` (one scope, the contract itself). -/
abbrev raffle_table := List raffletb

/-- The table `seats.d`: each row with the scope it is stored under. -/
abbrev seats_table := List (Nat × seatstb)

/-- The persistent state of the contract. -/
structure State where
  raffles : raffle_table
  seats : seats_table
deriving DecidableEq, Repr

/-- The largest key among `keys`, 0 if there is none. -/
def last_pk : List Nat → Nat
  | [] => 0
  | k :: ks => max k (last_pk ks)

/-- The constant `no_available_primary_key`, `2^64 - 2`. -/
def no_available_primary_key : Nat := 18446744073709551614

/-- The method `available_primary_key` on a table with the given keys. -/
def available_primary_key (keys : List Nat) : Except String Nat :=
  let next :=
    if keys = [] then 0
    else if last_pk keys ≥ no_available_primary_key then no_available_primary_key
    else last_pk keys + 1
  if next < no_available_primary_key then .ok next
  else .error "next primary key in table is at autoincrement limit"

/-- The method `find` of `raffle_table`. -/
def raffle_find (t : raffle_table) (k : Nat) : Option raffletb :=
  t.find? (fun r => r.id == k)

/-- The method `emplace` of `raffle_table`. -/
def raffle_emplace (t : raffle_table) (row : raffletb) : Except String raffle_table :=
  if (raffle_find t row.id).isSome then .error "could not insert object"
  else .ok (t ++ [row])

/-- The method `modify` of `raffle_table` on the row with key `k`. -/
def raffle_modify (t : raffle_table) (k : Nat) (f : raffletb → raffletb) : raffle_table :=
  t.map (fun r => if r.id = k then f r else r)

/-- The method `erase` of `raffle_table` on the row with key `k`. -/
def raffle_erase (t : raffle_table) (k : Nat) : raffle_table :=
  t.filter (fun r => r.id != k)

/-- The keys of the rows of `seats.d` under `scope`. -/
def seats_keys (t : seats_table) (scope : Nat) : List Nat :=
  (t.filter (fun p => p.1 == scope)).map (fun p => p.2.id)

/-- The method `find` of `seats_table` under `scope`. -/
def seats_find (t : seats_table) (scope k : Nat) : Option seatstb :=
  (t.find? (fun p => p.1 == scope && p.2.id == k)).map (fun p => p.2)

/-- The method `emplace` of `seats_table` under `scope`. -/
def seats_emplace (t : seats_table) (scope : Nat) (row : seatstb) : Except String seats_table :=
  if (seats_find t scope row.id).isSome then .error "could not insert object"
  else .ok (t ++ [(scope, row)])

/-! ## The contract -/

/-- The member `raffle_accepted_symbol`, set by the constructor. -/
def raffle_accepted_symbol : symbol := { code := "UOS", precision := 8 }

/-- The member `contract_shares_basis_point`. -/
def contract_shares_basis_point : Nat := 250

/-- The test behind `require_auth(account)`: the action carries the
authorization of `account`. -/
def has_auth (auths : List name) (account : name) : Bool := auths.contains account

/-- A row of `raffle.d` before the constructor lambda of `emplace` has run:
every member has its zero value. -/
def raffletb_zero : raffletb :=
  { id := 0, seats := 0, allocated_seats := 0,
    seat_price := { amount := 0, symbol := { code := "", precision := 0 } },
    require_max_seats_allocated := false, comission_basis_point := 0,
    comission_payer := 0,
    funds := { amount := 0, symbol := { code := "", precision := 0 } },
    winner := none }

/-- The action `create`. -/
def create (self : name) (auths : List name) (s : State) (seats : Nat) (seat_price : asset)
    (comission_basis_point : Nat) (comission_payer : name) : Except String State :=
  if ¬ has_auth auths self then .error "missing required authority"
  else if ¬ (seats > 1) then .error "minimum of 2 seats are required"
  else if ¬ (seat_price.symbol = raffle_accepted_symbol) then
    .error "seat price must be a UOS symbol"
  else if ¬ (comission_basis_point > 250) then
    .error "comissions basis point should be at least 250"
  else
    match available_primary_key (s.raffles.map (fun r => r.id)) with
    | .error e => .error e
    | .ok pk =>
      let new_id := if pk = 0 then 1 else pk
      match asset_new 0 raffle_accepted_symbol with
      | .error e => .error e
      | .ok zero_funds =>
        match raffle_emplace s.raffles
            { raffletb_zero with
              id := new_id, seats := seats, seat_price := seat_price,
              comission_basis_point := comission_basis_point,
              comission_payer := comission_payer, funds := zero_funds } with
        | .error e => .error e
        | .ok t => .ok { s with raffles := t }

/-- The action `updateseats`. -/
def updateseats (self : name) (auths : List name) (s : State) (raffle_id new_seats : Nat) :
    Except String State :=
  if ¬ has_auth auths self then .error "missing required authority"
  else
    match raffle_find s.raffles raffle_id with
    | none => .error "raffle id does not exist"
    | some r =>
      if ¬ (r.seats ≤ new_seats) then
        .error "the new number of seats cannot be lower or equal the actual seats"
      else
        .ok { s with raffles :=
                raffle_modify s.raffles raffle_id (fun r => { r with seats := new_seats }) }

/-- The notification handler `on_token_transfer`. -/
def on_token_transfer (self : name) (s : State) (from_ to_ : name) (quantity : asset)
    (memo : String) : Except String State :=
  if to_ ≠ self ∨ memo.isEmpty then .ok s
  else
    let raffle_id := to_uint64 (atoi memo)
    match raffle_find s.raffles raffle_id with
    | none => .error "raffle id does not exist"
    | some r =>
      if r.winner.isSome then .error "this raffle already have a winner"
      else if ¬ (r.seats ≥ (r.allocated_seats + 1) % 4294967296) then
        .error "max seats allocated"
      else
        match asset_ge quantity r.seat_price with
        | .error e => .error e
        | .ok false => .error "quantity received is lower than seat price for this raffle"
        | .ok true =>
          match available_primary_key (seats_keys s.seats raffle_id) with
          | .error e => .error e
          | .ok seat_id =>
            match seats_emplace s.seats raffle_id { id := seat_id, account := from_ } with
            | .error e => .error e
            | .ok seats =>
              match asset_add r.funds quantity with
              | .error e => .error e
              | .ok funds =>
                .ok { raffles :=
                        raffle_modify s.raffles raffle_id (fun r =>
                          { r with
                            allocated_seats := (r.allocated_seats + 1) % 4294967296,
                            funds := funds }),
                      seats := seats }

/-- An inline action `eosio.token::transfer` sent by the contract. -/
structure token_transfer where
  from_ : name
  to_ : name
  quantity : asset
  memo : String
deriving DecidableEq, Repr

/-- The amount `(funds.amount * basis_point) / 10000` in `int64_t`. -/
def share_amount (funds_amount : Int) (basis_point : Nat) : Int :=
  Int.tdiv (wrap64 (funds_amount * (basis_point : Int))) 10000

/-- The action `shuffle`; `shuffled` is the value returned by
`gen.nextInRange(0, allocated_seats)`. -/
def shuffle (self : name) (auths : List name) (s : State) (raffle_id : Nat) (shuffled : Nat) :
    Except String (State × List token_transfer) :=
  if ¬ has_auth auths self then .error "missing required authority"
  else
    match raffle_find s.raffles raffle_id with
    | none => .error "raffle id does not exist"
    | some r =>
      if r.winner.isSome then .error "this raffle already have a winner"
      else if r.require_max_seats_allocated ∧ ¬ (r.allocated_seats = r.seats) then
        .error "seats are not full allocated yet"
      else
        match asset_new (share_amount r.funds.amount r.comission_basis_point)
            raffle_accepted_symbol with
        | .error e => .error e
        | .ok comission_to_pay =>
          match asset_new (share_amount r.funds.amount contract_shares_basis_point)
              raffle_accepted_symbol with
          | .error e => .error e
          | .ok smart_contract_fee_to_pay =>
            match asset_sub r.funds comission_to_pay with
            | .error e => .error e
            | .ok rest =>
              match asset_sub rest smart_contract_fee_to_pay with
              | .error e => .error e
              | .ok winner_pot =>
                match seats_find s.seats raffle_id shuffled with
                | none => .error "shuddled id does not exist"
                | some seat =>
                  .ok ({ s with raffles :=
                           raffle_modify s.raffles raffle_id (fun r =>
                             { r with winner := some seat.account }) },
                       [ { from_ := self, to_ := r.comission_payer,
                           quantity := comission_to_pay,
                           memo := "[@uosloterry.raffle] comission shares" },
                         { from_ := self, to_ := seat.account,
                           quantity := winner_pot,
                           memo := "[@uosloterry.raffle] winner shares" } ])

/-- The action `invalidate`. -/
def invalidate (self : name) (auths : List name) (s : State) (raffle_id : Nat) :
    Except String State :=
  if ¬ has_auth auths self then .error "missing required authority"
  else
    match raffle_find s.raffles raffle_id with
    | none => .error "raffle id does not exist"
    | some r =>
      if r.winner.isSome then .error "cannot invalidate a raffle with a winner"
      else .ok { s with raffles := raffle_erase s.raffles raffle_id }

/-! ## Transactions -/

/-- One call of the contract with its arguments. -/
inductive Action where
  | create (auths : List name) (seats : Nat) (seat_price : asset)
      (comission_basis_point : Nat) (comission_payer : name)
  | updateseats (auths : List name) (raffle_id new_seats : Nat)
  | on_token_transfer (from_ to_ : name) (quantity : asset) (memo : String)
  | shuffle (auths : List name) (raffle_id shuffled : Nat)
  | invalidate (auths : List name) (raffle_id : Nat)
deriving DecidableEq, Repr

/-- The arguments of the call fit the C++ types of the parameters. -/
def Action.well_typed : Action → Prop
  | .create _ seats seat_price comission_basis_point _ =>
      seats < 4294967296 ∧ wrap64 seat_price.amount = seat_price.amount ∧
      comission_basis_point < 65536
  | .updateseats _ raffle_id new_seats =>
      raffle_id < 18446744073709551616 ∧ new_seats < 4294967296
  | .on_token_transfer _ _ quantity _ => wrap64 quantity.amount = quantity.amount
  | .shuffle _ raffle_id shuffled =>
      raffle_id < 18446744073709551616 ∧ shuffled < 18446744073709551616
  | .invalidate _ raffle_id => raffle_id < 18446744073709551616

/-- The result of a call: the new state and the inline actions it sent. -/
def dispatch (self : name) (s : State) : Action → Except String (State × List token_transfer)
  | .create auths seats seat_price comission_basis_point comission_payer =>
      (create self auths s seats seat_price comission_basis_point comission_payer).map
        (fun s' => (s', []))
  | .updateseats auths raffle_id new_seats =>
      (updateseats self auths s raffle_id new_seats).map (fun s' => (s', []))
  | .on_token_transfer from_ to_ quantity memo =>
      (on_token_transfer self s from_ to_ quantity memo).map (fun s' => (s', []))
  | .shuffle auths raffle_id shuffled => shuffle self auths s raffle_id shuffled
  | .invalidate auths raffle_id =>
      (invalidate self auths s raffle_id).map (fun s' => (s', []))

/-- The state after the transaction of a call: a failed check rolls every
write back. -/
def exec (self : name) (s : State) (a : Action) : State :=
  match dispatch self s a with
  | .ok (s', _) => s'
  | .error _ => s

/-- The state after a sequence of transactions. -/
def run (self : name) (s : State) (acts : List Action) : State :=
  acts.foldl (exec self) s

/-- The store before any call. -/
def State.empty : State := { raffles := [], seats := [] }

/-- The states the contract can be in: those that calls with well typed
arguments produce from the empty store. -/
inductive Reachable (self : name) : State → Prop
  | init : Reachable self State.empty
  | step {s : State} (a : Action) : Reachable self s → a.well_typed →
      Reachable self (exec self s a)

/-! ## Auxiliary definitions of the verification -/

/-- The row `create` stores under the key `new_id`. -/
def created_row (new_id seats : Nat) (seat_price : asset) (comission_basis_point : Nat)
    (comission_payer : name) : raffletb :=
  { id := new_id, seats := seats, allocated_seats := 0, seat_price := seat_price,
    require_max_seats_allocated := false, comission_basis_point := comission_basis_point,
    comission_payer := comission_payer,
    funds := { amount := 0, symbol := raffle_accepted_symbol }, winner := none }

/-- What every row of `raffle.d` satisfies in a reachable state. -/
structure raffletb.valid (r : raffletb) : Prop where
  id_ne_zero : r.id ≠ 0
  seats_ge : 2 ≤ r.seats
  seats_lt : r.seats < 4294967296
  allocated_le : r.allocated_seats ≤ r.seats
  funds_lower : -max_amount ≤ r.funds.amount
  funds_upper : r.funds.amount ≤ max_amount
  funds_symbol : r.funds.symbol = raffle_accepted_symbol
  price_symbol : r.seat_price.symbol = raffle_accepted_symbol
  basis_point_gt : 250 < r.comission_basis_point
  basis_point_lt : r.comission_basis_point < 65536
  not_required : r.require_max_seats_allocated = false

/-- What every reachable state satisfies: its rows are valid and no two rows of
`raffle.d` have the same key. -/
structure State.valid (s : State) : Prop where
  rows : ∀ r ∈ s.raffles, r.valid
  keys : (s.raffles.map (fun r => r.id)).Nodup

/-- The quantity of `a` units of the accepted symbol. -/
def uos (a : Int) : asset := { amount := a, symbol := raffle_accepted_symbol }

/-- The row of a raffle with the largest capacity `uint32_t` admits, key 1. -/
def sold_row (price : Int) (allocated : Nat) (funds : Int) : raffletb :=
  { id := 1, seats := 4294967295, allocated_seats := allocated, seat_price := uos price,
    require_max_seats_allocated := false, comission_basis_point := 300, comission_payer := 9,
    funds := uos funds, winner := none }

/-- The store with the row `sold_row` and the seats with keys `0, ..., n - 1` under
scope 1, all of account 11. -/
def sold (price : Int) (allocated n : Nat) (funds : Int) : State :=
  { raffles := [sold_row price allocated funds],
    seats := (List.range n).map (fun i => (1, { id := i, account := 11 })) }

instance Action.well_typed_decidable (a : Action) : Decidable a.well_typed := by
  cases a <;> unfold Action.well_typed <;> infer_instance

/-- The store after a raffle of two seats at a commission of 300 basis points
has received one deposit of `2^62 - 1` units, the largest quantity of a token. -/
def large_pool : State :=
  run 7 State.empty
    [ .create [7] 2 (uos 1) 300 9,
      .on_token_transfer 11 7 (uos 4611686018427387903) "1" ]

/-- The store after the creation of a raffle of two seats at 1.00000000 UOS. -/
def fresh : State :=
  run 7 State.empty [ .create [7] 2 (uos 100000000) 300 9 ]

/-- The store after both seats of the raffle of `fresh` were bought, by the
accounts 11 and 12, and the draw gave the seat with key 1. -/
def drawn : State :=
  run 7 fresh
    [ .on_token_transfer 11 7 (uos 100000000) "1",
      .on_token_transfer 12 7 (uos 100000000) "1",
      .shuffle [7] 1 1 ]

/-- The row of the raffle of `drawn`. -/
def drawn_row : raffletb :=
  { id := 1, seats := 2, allocated_seats := 2, seat_price := uos 100000000,
    require_max_seats_allocated := false, comission_basis_point := 300, comission_payer := 9,
    funds := uos 200000000, winner := some 12 }

/-- The store after the raffle of `fresh` received one deposit, from account 11. -/
def funded : State :=
  run 7 fresh [ .on_token_transfer 11 7 (uos 100000000) "1" ]

/-- The row of the raffle of `funded`. -/
def funded_row : raffletb :=
  { id := 1, seats := 2, allocated_seats := 1, seat_price := uos 100000000,
    require_max_seats_allocated := false, comission_basis_point := 300, comission_payer := 9,
    funds := uos 100000000, winner := none }

/-- The characters do not start with a decimal digit. -/
def no_digit_ahead : List Char → Bool
  | [] => true
  | c :: _ => !isdigit c

/-- The memo has no numeral for `atoi` to read: after its leading white space and
an optional sign comes no decimal digit. -/
def no_numeral (memo : String) : Bool :=
  match memo.data.dropWhile isspace with
  | [] => true
  | c :: cs => if c.toNat = 45 ∨ c.toNat = 43 then no_digit_ahead cs else no_digit_ahead (c :: cs)

/-- The number of rows of `seats.d` under `scope`. -/
def seats_count (t : seats_table) (scope : Nat) : Nat := (seats_keys t scope).length

/-- The keys of every scope of `seats.d` are `0, ..., n - 1` in the order of
insertion, and no row of `raffle.d` counts more seats than its scope holds. -/
structure State.dense (s : State) : Prop where
  keys : ∀ scope, seats_keys s.seats scope = List.range (seats_count s.seats scope)
  allocated : ∀ r ∈ s.raffles, r.allocated_seats ≤ seats_count s.seats r.id

/-- The store after the raffle of `funded` was invalidated and a raffle was
created again: the key 1 is issued a second time, and the seat of account 11
is still under scope 1. -/
def reissued : State :=
  run 7 funded [ .invalidate [7] 1, .create [7] 2 (uos 100000000) 300 9 ]

/-- The store after the second raffle of `reissued` received one deposit, from
account 12. -/
def replayed : State :=
  run 7 reissued [ .on_token_transfer 12 7 (uos 100000000) "1" ]

/-- The store after a raffle of two seats at a commission of 303 basis points
has received one deposit of `2^62 - 1` units. -/
def wrapped_pool : State :=
  run 7 State.empty
    [ .create [7] 2 (uos 1) 303 9,
      .on_token_transfer 11 7 (uos 4611686018427387903) "1" ]

/-- The store after a raffle created at a commission of 10000 basis points has
received one deposit of 1.00000000 UOS. -/
def full_commission : State :=
  run 7 State.empty
    [ .create [7] 2 (uos 100000000) 10000 9,
      .on_token_transfer 11 7 (uos 100000000) "1" ]

/-! ## Tables: lemmas -/

theorem le_last_pk {keys : List Nat} {k : Nat} (h : k ∈ keys) : k ≤ last_pk keys := by
  induction keys with
  | nil => cases h
  | cons a as ih =>
    simp only [last_pk]
    rcases List.mem_cons.mp h with h | h
    · subst h; exact le_max_left _ _
    · exact le_trans (ih h) (le_max_right _ _)

theorem raffle_find_nil (k : Nat) : raffle_find [] k = none := rfl

theorem raffle_find_cons (a : raffletb) (t : raffle_table) (k : Nat) :
    raffle_find (a :: t) k = if a.id = k then some a else raffle_find t k := by
  unfold raffle_find
  rw [List.find?_cons]
  by_cases h : a.id = k
  · have hb : (a.id == k) = true := by simpa using h
    rw [hb, if_pos h]
  · have hb : (a.id == k) = false := by simpa using h
    rw [hb, if_neg h]

theorem raffle_find_some {t : raffle_table} {k : Nat} {r : raffletb}
    (h : raffle_find t k = some r) : r ∈ t ∧ r.id = k := by
  unfold raffle_find at h
  exact ⟨List.mem_of_find?_eq_some h, by simpa using List.find?_some h⟩

theorem raffle_find_none {t : raffle_table} {k : Nat} :
    raffle_find t k = none ↔ ∀ r ∈ t, r.id ≠ k := by
  simp [raffle_find, List.find?_eq_none]

theorem raffle_find_append (t : raffle_table) (row : raffletb) (k : Nat) :
    raffle_find (t ++ [row]) k =
      match raffle_find t k with
      | some r => some r
      | none => if row.id = k then some row else none := by
  induction t with
  | nil => rw [List.nil_append, raffle_find_cons, raffle_find_nil]
  | cons a as ih =>
    rw [List.cons_append, raffle_find_cons, raffle_find_cons]
    by_cases h : a.id = k
    · rw [if_pos h, if_pos h]
    · rw [if_neg h, if_neg h]; exact ih

theorem raffle_find_modify_ne (t : raffle_table) (k j : Nat) (f : raffletb → raffletb)
    (hf : ∀ r, (f r).id = r.id) (hj : j ≠ k) :
    raffle_find (raffle_modify t k f) j = raffle_find t j := by
  induction t with
  | nil => rfl
  | cons a as ih =>
    unfold raffle_modify at ih ⊢
    rw [List.map_cons, raffle_find_cons, raffle_find_cons, ih]
    by_cases h : a.id = k
    · have h2 : ¬ a.id = j := fun e => hj (e ▸ h)
      rw [if_pos h, hf, if_neg h2, if_neg h2]
    · rw [if_neg h]

theorem raffle_find_modify_eq (t : raffle_table) (k : Nat) (f : raffletb → raffletb)
    (hf : ∀ r, (f r).id = r.id) :
    raffle_find (raffle_modify t k f) k = (raffle_find t k).map f := by
  induction t with
  | nil => rfl
  | cons a as ih =>
    unfold raffle_modify at ih ⊢
    rw [List.map_cons, raffle_find_cons, raffle_find_cons, ih]
    by_cases h : a.id = k
    · rw [if_pos h, hf, if_pos h, if_pos h]; rfl
    · rw [if_neg h, if_neg h, if_neg h]

theorem raffle_find_erase_eq (t : raffle_table) (k : Nat) :
    raffle_find (raffle_erase t k) k = none := by
  rw [raffle_find_none]
  intro r hr
  simp [raffle_erase] at hr
  exact hr.2

theorem raffle_find_erase_ne (t : raffle_table) (k j : Nat) (hj : j ≠ k) :
    raffle_find (raffle_erase t k) j = raffle_find t j := by
  induction t with
  | nil => rfl
  | cons a as ih =>
    unfold raffle_erase at ih ⊢
    rw [List.filter_cons, raffle_find_cons]
    by_cases h : a.id = k
    · have h2 : ¬ a.id = j := fun e => hj (e ▸ h)
      simp only [h, bne_self_eq_false, Bool.false_eq_true, if_false]
      rw [ih, ← h, if_neg h2]
    · have h3 : (a.id != k) = true := by simpa using h
      rw [if_pos h3, raffle_find_cons, ih]


theorem available_primary_key_ok {keys : List Nat} {pk : Nat}
    (h : available_primary_key keys = .ok pk) :
    pk < no_available_primary_key ∧ (∀ k ∈ keys, k < pk) ∧ (keys = [] → pk = 0) ∧
      (keys ≠ [] → pk = last_pk keys + 1) := by
  unfold available_primary_key at h
  by_cases hk : keys = []
  · subst hk
    simp [no_available_primary_key] at h
    subst h
    simp [no_available_primary_key]
  · simp only [hk, if_false] at h
    by_cases hl : last_pk keys ≥ no_available_primary_key
    · simp [hl] at h
    · simp only [hl, if_false] at h
      split_ifs at h with h2
      cases h
      refine ⟨h2, ?_, fun e => absurd e hk, fun _ => rfl⟩
      intro k hkm
      exact Nat.lt_succ_of_le (le_last_pk hkm)

theorem create_ok {self : name} {auths : List name} {s s' : State} {seats : Nat}
    {seat_price : asset} {comission_basis_point : Nat} {comission_payer : name}
    (h : create self auths s seats seat_price comission_basis_point comission_payer = .ok s') :
    has_auth auths self = true ∧ 1 < seats ∧ seat_price.symbol = raffle_accepted_symbol ∧
    250 < comission_basis_point ∧
    ∃ pk, available_primary_key (s.raffles.map (fun r => r.id)) = .ok pk ∧
      raffle_find s.raffles (if pk = 0 then 1 else pk) = none ∧
      s' = { s with raffles := s.raffles ++
        [created_row (if pk = 0 then 1 else pk) seats seat_price comission_basis_point
          comission_payer] } := by
  unfold create at h
  split_ifs at h with h1 h2 h3 h4
  split at h
  · cases h
  · rename_i pk hpk
    have hz : asset_new 0 raffle_accepted_symbol =
        .ok { amount := 0, symbol := raffle_accepted_symbol } := rfl
    rw [hz] at h
    simp only [raffle_emplace] at h
    cases hf : raffle_find s.raffles (if pk = 0 then 1 else pk) with
    | some r => simp [hf] at h
    | none =>
      simp only [hf, Option.isSome_none, Bool.false_eq_true, if_false] at h
      cases h
      exact ⟨h1, h2, h3, h4, pk, hpk, hf, rfl⟩


theorem updateseats_ok {self : name} {auths : List name} {s s' : State} {raffle_id new_seats : Nat}
    (h : updateseats self auths s raffle_id new_seats = .ok s') :
    has_auth auths self = true ∧
    ∃ r, raffle_find s.raffles raffle_id = some r ∧ r.seats ≤ new_seats ∧
      s' = { s with raffles :=
        raffle_modify s.raffles raffle_id (fun r => { r with seats := new_seats }) } := by
  unfold updateseats at h
  split_ifs at h with h1
  split at h
  · cases h
  · rename_i r hr
    split_ifs at h with h2
    cases h
    exact ⟨h1, r, hr, h2, rfl⟩

theorem invalidate_ok {self : name} {auths : List name} {s s' : State} {raffle_id : Nat}
    (h : invalidate self auths s raffle_id = .ok s') :
    has_auth auths self = true ∧
    ∃ r, raffle_find s.raffles raffle_id = some r ∧ r.winner = none ∧
      s' = { s with raffles := raffle_erase s.raffles raffle_id } := by
  unfold invalidate at h
  split_ifs at h with h1
  split at h
  · cases h
  · rename_i r hr
    split_ifs at h with h2
    cases h
    refine ⟨h1, r, hr, ?_, rfl⟩
    cases hw : r.winner with
    | none => rfl
    | some w => simp [hw] at h2

theorem asset_ge_ok {a b : asset} (h : asset_ge a b = .ok true) :
    a.symbol = b.symbol ∧ b.amount ≤ a.amount := by
  unfold asset_ge at h
  split_ifs at h with h1
  · exact ⟨h1, by simpa using h⟩

theorem asset_add_ok {a b c : asset} (h : asset_add a b = .ok c) :
    b.symbol = a.symbol ∧ c.symbol = a.symbol ∧ c.amount = wrap64 (a.amount + b.amount) ∧
      -max_amount ≤ c.amount ∧ c.amount ≤ max_amount := by
  unfold asset_add at h
  split_ifs at h with h1
  dsimp only at h
  split_ifs at h with h2 h3
  cases h
  exact ⟨h1, rfl, rfl, h2, h3⟩

theorem asset_sub_ok {a b c : asset} (h : asset_sub a b = .ok c) :
    b.symbol = a.symbol ∧ c.symbol = a.symbol ∧ c.amount = wrap64 (a.amount - b.amount) ∧
      -max_amount ≤ c.amount ∧ c.amount ≤ max_amount := by
  unfold asset_sub at h
  split_ifs at h with h1
  dsimp only at h
  split_ifs at h with h2 h3
  cases h
  exact ⟨h1, rfl, rfl, h2, h3⟩

theorem on_token_transfer_ok {self : name} {s s' : State} {from_ to_ : name} {quantity : asset}
    {memo : String} (h : on_token_transfer self s from_ to_ quantity memo = .ok s') :
    ((to_ ≠ self ∨ memo.isEmpty = true) ∧ s' = s) ∨
    (to_ = self ∧ memo.isEmpty = false ∧ ∃ r seat_id funds,
      raffle_find s.raffles (to_uint64 (atoi memo)) = some r ∧ r.winner = none ∧
      (r.allocated_seats + 1) % 4294967296 ≤ r.seats ∧
      asset_ge quantity r.seat_price = .ok true ∧
      available_primary_key (seats_keys s.seats (to_uint64 (atoi memo))) = .ok seat_id ∧
      seats_find s.seats (to_uint64 (atoi memo)) seat_id = none ∧
      asset_add r.funds quantity = .ok funds ∧
      s' = { raffles := raffle_modify s.raffles (to_uint64 (atoi memo)) (fun r =>
               { r with allocated_seats := (r.allocated_seats + 1) % 4294967296,
                        funds := funds }),
             seats := s.seats ++ [(to_uint64 (atoi memo), { id := seat_id, account := from_ })] })
    := by
  unfold on_token_transfer at h
  split_ifs at h with h1
  · cases h; exact Or.inl ⟨h1, rfl⟩
  · right
    have h1a : to_ = self := by
      by_contra hc; exact h1 (Or.inl hc)
    have h1b : memo.isEmpty = false := by
      cases hm : memo.isEmpty with
      | false => rfl
      | true => exact absurd (Or.inr hm) h1
    simp only at h
    split at h
    · cases h
    · rename_i r hr
      split_ifs at h with h2 h3
      split at h
      · cases h
      · cases h
      · rename_i hge
        split at h
        · cases h
        · rename_i seat_id hpk
          simp only [seats_emplace] at h
          cases hf : seats_find s.seats (to_uint64 (atoi memo)) seat_id with
          | some x => simp [hf] at h
          | none =>
            simp only [hf, Option.isSome_none, Bool.false_eq_true, if_false] at h
            split at h
            · cases h
            · rename_i funds hfunds
              cases h
              refine ⟨h1a, h1b, r, seat_id, funds, hr, ?_, h3, hge, hpk, hf, hfunds, rfl⟩
              cases hw : r.winner with
              | none => rfl
              | some w => simp [hw] at h2

theorem shuffle_ok {self : name} {auths : List name} {s s' : State} {raffle_id shuffled : Nat}
    {out : List token_transfer} (h : shuffle self auths s raffle_id shuffled = .ok (s', out)) :
    has_auth auths self = true ∧
    ∃ r comission_to_pay smart_contract_fee_to_pay rest winner_pot seat,
      raffle_find s.raffles raffle_id = some r ∧ r.winner = none ∧
      (r.require_max_seats_allocated = true → r.allocated_seats = r.seats) ∧
      asset_new (share_amount r.funds.amount r.comission_basis_point) raffle_accepted_symbol =
        .ok comission_to_pay ∧
      asset_new (share_amount r.funds.amount contract_shares_basis_point)
        raffle_accepted_symbol = .ok smart_contract_fee_to_pay ∧
      asset_sub r.funds comission_to_pay = .ok rest ∧
      asset_sub rest smart_contract_fee_to_pay = .ok winner_pot ∧
      seats_find s.seats raffle_id shuffled = some seat ∧
      s' = { s with raffles := raffle_modify s.raffles raffle_id (fun r =>
               { r with winner := some seat.account }) } ∧
      out = [ { from_ := self, to_ := r.comission_payer, quantity := comission_to_pay,
                memo := "[@uosloterry.raffle] comission shares" },
              { from_ := self, to_ := seat.account, quantity := winner_pot,
                memo := "[@uosloterry.raffle] winner shares" } ] := by
  unfold shuffle at h
  split_ifs at h with h1
  split at h
  · cases h
  · rename_i r hr
    split_ifs at h with h2 h3
    split at h
    · cases h
    · rename_i c hc
      split at h
      · cases h
      · rename_i fee hfee
        split at h
        · cases h
        · rename_i rest hrest
          split at h
          · cases h
          · rename_i pot hpot
            split at h
            · cases h
            · rename_i seat hseat
              simp only [Except.ok.injEq, Prod.mk.injEq] at h
              obtain ⟨hs, ho⟩ := h
              refine ⟨h1, r, c, fee, rest, pot, seat, hr, ?_, ?_, hc, hfee, hrest, hpot, hseat,
                hs.symm, ho.symm⟩
              · cases hw : r.winner with
                | none => rfl
                | some w => simp [hw] at h2
              · intro hreq
                by_contra hne
                exact h3 ⟨hreq, hne⟩


theorem raffle_modify_keys (t : raffle_table) (k : Nat) (f : raffletb → raffletb)
    (hf : ∀ r, (f r).id = r.id) :
    (raffle_modify t k f).map (fun r => r.id) = t.map (fun r => r.id) := by
  unfold raffle_modify
  rw [List.map_map]
  apply List.map_congr_left
  intro r _
  show (if r.id = k then f r else r).id = r.id
  split_ifs
  · exact hf r
  · rfl

theorem mem_raffle_modify {t : raffle_table} {k : Nat} {f : raffletb → raffletb} {x : raffletb}
    (h : x ∈ raffle_modify t k f) : x ∈ t ∨ ∃ r ∈ t, r.id = k ∧ x = f r := by
  unfold raffle_modify at h
  obtain ⟨r, hr, hx⟩ := List.mem_map.mp h
  split_ifs at hx with hk
  · exact Or.inr ⟨r, hr, hk, hx.symm⟩
  · exact Or.inl (hx ▸ hr)

theorem create_valid {self : name} {auths : List name} {s s' : State} {seats : Nat}
    {seat_price : asset} {comission_basis_point : Nat} {comission_payer : name}
    (hs : s.valid) (hseats : seats < 4294967296) (hbp : comission_basis_point < 65536)
    (h : create self auths s seats seat_price comission_basis_point comission_payer = .ok s') :
    s'.valid := by
  obtain ⟨_, h2, h3, h4, pk, hpk, hnone, rfl⟩ := create_ok h
  constructor
  · intro r hr
    rcases List.mem_append.mp hr with hr | hr
    · exact hs.rows r hr
    · rw [List.mem_singleton] at hr
      subst hr
      refine ⟨?_, h2, hseats, Nat.zero_le _, ?_, ?_, rfl, h3, h4, hbp, rfl⟩
      · show (if pk = 0 then 1 else pk) ≠ 0
        split_ifs with h0
        · exact one_ne_zero
        · exact h0
      · show -max_amount ≤ 0
        decide
      · show (0 : Int) ≤ max_amount
        decide
  · show (List.map (fun r => r.id) (s.raffles ++ [_])).Nodup
    rw [List.map_append, List.nodup_append]
    refine ⟨hs.keys, List.nodup_singleton _, ?_⟩
    intro a ha hb
    rw [List.map_singleton, List.mem_singleton] at hb
    obtain ⟨r, hr, rfl⟩ := List.mem_map.mp ha
    exact raffle_find_none.mp hnone r hr hb

theorem raffle_find_of_mem {t : raffle_table} {r : raffletb}
    (hn : (t.map (fun r => r.id)).Nodup) (hr : r ∈ t) : raffle_find t r.id = some r := by
  induction t with
  | nil => cases hr
  | cons a as ih =>
    rw [raffle_find_cons]
    rw [List.map_cons, List.nodup_cons] at hn
    rcases List.mem_cons.mp hr with h | h
    · subst h; rw [if_pos rfl]
    · have hne : ¬ a.id = r.id := by
        intro e
        exact hn.1 (e ▸ List.mem_map_of_mem (fun r => r.id) h)
      rw [if_neg hne]
      exact ih hn.2 h

theorem updateseats_valid {self : name} {auths : List name} {s s' : State}
    {raffle_id new_seats : Nat} (hs : s.valid) (hnew : new_seats < 4294967296)
    (h : updateseats self auths s raffle_id new_seats = .ok s') : s'.valid := by
  obtain ⟨_, r0, hr0, hle, rfl⟩ := updateseats_ok h
  constructor
  · intro x hx
    rcases mem_raffle_modify hx with hx | ⟨r, hr, hk, rfl⟩
    · exact hs.rows x hx
    · have hv := hs.rows r hr
      have hfind := raffle_find_of_mem hs.keys hr
      rw [hk, hr0] at hfind
      cases hfind
      exact ⟨hv.id_ne_zero, le_trans hv.seats_ge hle, hnew, le_trans hv.allocated_le hle,
        hv.funds_lower, hv.funds_upper, hv.funds_symbol, hv.price_symbol, hv.basis_point_gt,
        hv.basis_point_lt, hv.not_required⟩
  · show (List.map (fun r => r.id) (raffle_modify _ _ _)).Nodup
    rw [raffle_modify_keys]
    · exact hs.keys
    · intro r; rfl

theorem on_token_transfer_valid {self : name} {s s' : State} {from_ to_ : name}
    {quantity : asset} {memo : String} (hs : s.valid)
    (h : on_token_transfer self s from_ to_ quantity memo = .ok s') : s'.valid := by
  rcases on_token_transfer_ok h with ⟨_, rfl⟩ | ⟨_, _, r0, seat_id, funds, hr0, _, hle, _, _, _,
    hadd, rfl⟩
  · exact hs
  · obtain ⟨_, hsym, _, hlo, hhi⟩ := asset_add_ok hadd
    constructor
    · intro x hx
      rcases mem_raffle_modify hx with hx | ⟨r, hr, hk, rfl⟩
      · exact hs.rows x hx
      · have hv := hs.rows r hr
        have hfind := raffle_find_of_mem hs.keys hr
        rw [hk, hr0] at hfind
        cases hfind
        exact ⟨hv.id_ne_zero, hv.seats_ge, hv.seats_lt, hle, hlo, hhi,
          hsym.trans hv.funds_symbol, hv.price_symbol, hv.basis_point_gt,
          hv.basis_point_lt, hv.not_required⟩
    · show (List.map (fun r => r.id) (raffle_modify _ _ _)).Nodup
      rw [raffle_modify_keys]
      · exact hs.keys
      · intro r; rfl

theorem shuffle_valid {self : name} {auths : List name} {s s' : State} {raffle_id shuffled : Nat}
    {out : List token_transfer} (hs : s.valid)
    (h : shuffle self auths s raffle_id shuffled = .ok (s', out)) : s'.valid := by
  obtain ⟨_, r0, _, _, _, _, seat, _, _, _, _, _, _, _, _, rfl, _⟩ := shuffle_ok h
  constructor
  · intro x hx
    rcases mem_raffle_modify hx with hx | ⟨r, hr, _, rfl⟩
    · exact hs.rows x hx
    · have hv := hs.rows r hr
      exact ⟨hv.id_ne_zero, hv.seats_ge, hv.seats_lt, hv.allocated_le, hv.funds_lower,
        hv.funds_upper, hv.funds_symbol, hv.price_symbol, hv.basis_point_gt,
        hv.basis_point_lt, hv.not_required⟩
  · show (List.map (fun r => r.id) (raffle_modify _ _ _)).Nodup
    rw [raffle_modify_keys]
    · exact hs.keys
    · intro r; rfl

theorem invalidate_valid {self : name} {auths : List name} {s s' : State} {raffle_id : Nat}
    (hs : s.valid) (h : invalidate self auths s raffle_id = .ok s') : s'.valid := by
  obtain ⟨_, r0, _, _, rfl⟩ := invalidate_ok h
  constructor
  · intro x hx
    exact hs.rows x (List.mem_of_mem_filter hx)
  · show (List.map (fun r => r.id) (raffle_erase _ _)).Nodup
    exact (List.filter_sublist _).map _ |>.nodup hs.keys

theorem exec_valid (self : name) {s : State} (a : Action) (hs : s.valid) (ha : a.well_typed) :
    (exec self s a).valid := by
  unfold exec
  cases hd : dispatch self s a with
  | error e => exact hs
  | ok p =>
    obtain ⟨s', out⟩ := p
    show s'.valid
    cases a with
    | create auths seats seat_price bp payer =>
      simp only [dispatch] at hd
      cases hc : create self auths s seats seat_price bp payer with
      | error e => rw [hc] at hd; cases hd
      | ok s2 =>
        rw [hc] at hd; cases hd
        exact create_valid hs ha.1 ha.2.2 hc
    | updateseats auths raffle_id new_seats =>
      simp only [dispatch] at hd
      cases hc : updateseats self auths s raffle_id new_seats with
      | error e => rw [hc] at hd; cases hd
      | ok s2 =>
        rw [hc] at hd; cases hd
        exact updateseats_valid hs ha.2 hc
    | on_token_transfer from_ to_ quantity memo =>
      simp only [dispatch] at hd
      cases hc : on_token_transfer self s from_ to_ quantity memo with
      | error e => rw [hc] at hd; cases hd
      | ok s2 =>
        rw [hc] at hd; cases hd
        exact on_token_transfer_valid hs hc
    | shuffle auths raffle_id shuffled =>
      simp only [dispatch] at hd
      exact shuffle_valid hs hd
    | invalidate auths raffle_id =>
      simp only [dispatch] at hd
      cases hc : invalidate self auths s raffle_id with
      | error e => rw [hc] at hd; cases hd
      | ok s2 =>
        rw [hc] at hd; cases hd
        exact invalidate_valid hs hc

theorem reachable_valid {self : name} {s : State} (h : Reachable self s) : s.valid := by
  induction h with
  | init => exact State.valid.mk (fun r hr => by cases hr) List.nodup_nil
  | step a _ ha ih => exact exec_valid self a ih ha
theorem last_pk_append (l : List Nat) (k : Nat) : last_pk (l ++ [k]) = max (last_pk l) k := by
  induction l with
  | nil => simp [last_pk]
  | cons a as ih =>
    show max a (last_pk (as ++ [k])) = max (max a (last_pk as)) k
    rw [ih]
    exact (Nat.max_assoc _ _ _).symm

theorem last_pk_range (n : Nat) : last_pk (List.range (n + 1)) = n := by
  induction n with
  | zero => rfl
  | succ m ih =>
    rw [List.range_succ, last_pk_append, ih]
    exact max_eq_right (Nat.le_succ m)

theorem available_primary_key_range (n : Nat) (hn : n < no_available_primary_key) :
    available_primary_key (List.range n) = .ok n := by
  unfold available_primary_key
  cases n with
  | zero => rfl
  | succ m =>
    have hne : List.range (m + 1) ≠ [] := by
      rw [List.range_succ]; simp
    have hlt : ¬ (m ≥ no_available_primary_key) := by omega
    simp only [hne, if_false, last_pk_range, hlt, hn, if_true]

theorem sold_seats_keys (price : Int) (allocated n : Nat) (funds : Int) :
    seats_keys (sold price allocated n funds).seats 1 = List.range n := by
  unfold seats_keys sold
  simp [List.filter_map, Function.comp_def]

theorem sold_seats_find (price : Int) (allocated n : Nat) (funds : Int) :
    seats_find (sold price allocated n funds).seats 1 n = none := by
  unfold seats_find sold
  rw [Option.map_eq_none', List.find?_eq_none]
  intro p hp
  obtain ⟨i, hi, rfl⟩ := List.mem_map.mp hp
  have : i ≠ n := Nat.ne_of_lt (List.mem_range.mp hi)
  simp [this]

theorem sold_deposit (self : name) (price : Int) (allocated n : Nat) (funds : Int)
    (hn : n < no_available_primary_key)
    (hlo : -max_amount ≤ funds + price) (hhi : funds + price ≤ max_amount) :
    on_token_transfer self (sold price allocated n funds) 11 self (uos price) "1" =
      .ok (sold price ((allocated + 1) % 4294967296) (n + 1) (funds + price)) := by
  have hkey : to_uint64 (atoi "1") = 1 := by decide
  have hmemo : ¬ ((self ≠ self) ∨ ("1" : String).isEmpty = true) := by
    intro h; rcases h with h | h
    · exact h rfl
    · exact absurd h (by decide)
  have hfind : raffle_find (sold price allocated n funds).raffles 1 =
      some (sold_row price allocated funds) := rfl
  have hseats : (sold_row price allocated funds).seats ≥
      ((sold_row price allocated funds).allocated_seats + 1) % 4294967296 := by
    show 4294967295 ≥ (allocated + 1) % 4294967296
    omega
  have hge : asset_ge (uos price) (sold_row price allocated funds).seat_price = .ok true := by
    simp [asset_ge, sold_row, uos]
  have hwrap : wrap64 (funds + price) = funds + price := by
    unfold max_amount at hlo hhi
    unfold wrap64
    omega
  have hadd : asset_add (sold_row price allocated funds).funds (uos price) =
      .ok (uos (funds + price)) := by
    unfold asset_add
    simp only [sold_row, uos, not_true_eq_false, if_false, hwrap, hlo, hhi]
  unfold on_token_transfer
  rw [if_neg hmemo]
  simp only [hkey, hfind]
  have hw : (sold_row price allocated funds).winner.isSome = false := rfl
  rw [hw]
  simp only [Bool.false_eq_true, if_false, not_not, hseats, if_true, hge, sold_seats_keys,
    available_primary_key_range n hn, seats_emplace, sold_seats_find, Option.isSome_none, hadd]
  simp only [not_true_eq_false, if_false]
  unfold sold
  congr 1
  simp only [List.range_succ, List.map_append, List.map_singleton]
  congr 1
theorem exec_on_token_transfer_ok {self : name} {s s' : State} {from_ to_ : name}
    {quantity : asset} {memo : String}
    (h : on_token_transfer self s from_ to_ quantity memo = .ok s') :
    exec self s (.on_token_transfer from_ to_ quantity memo) = s' := by
  simp only [exec, dispatch, h, Except.map]

theorem exec_on_token_transfer_error {self : name} {s : State} {from_ to_ : name}
    {quantity : asset} {memo : String} {e : String}
    (h : on_token_transfer self s from_ to_ quantity memo = .error e) :
    exec self s (.on_token_transfer from_ to_ quantity memo) = s := by
  simp only [exec, dispatch, h, Except.map]

theorem has_auth_self (self : name) : has_auth [self] self = true := by
  simp [has_auth]

theorem sold_create (self : name) (price : Int) :
    exec self State.empty (.create [self] 4294967295 (uos price) 300 9) = sold price 0 0 0 := by
  simp [exec, dispatch, create, has_auth_self, uos, State.empty, available_primary_key,
    no_available_primary_key, asset_new, is_amount_within_range, max_amount, raffle_emplace,
    raffle_find, raffletb_zero, Except.map, sold, sold_row]

theorem sold_reachable (self : name) (price : Int) (hp : 0 ≤ price)
    (hq : 4294967295 * price ≤ max_amount) (n : Nat) (hn : n ≤ 4294967295) :
    Reachable self (sold price n n (n * price)) := by
  induction n with
  | zero =>
    have h := Reachable.step (.create [self] 4294967295 (uos price) 300 9)
      (@Reachable.init self) (by
        unfold max_amount at hq
        refine ⟨by decide, ?_, by decide⟩
        show wrap64 price = price
        unfold wrap64
        omega)
    rw [sold_create] at h
    simpa using h
  | succ m ih =>
    have hm : m ≤ 4294967295 := by omega
    have hmul : ((m + 1 : Nat) : Int) * price = (m : Int) * price + price := by
      push_cast; ring
    have hbound : (m : Int) * price + price ≤ 4294967295 * price := by
      have : ((m : Int) + 1) * price ≤ 4294967295 * price := by
        apply mul_le_mul_of_nonneg_right _ hp
        omega
      linarith
    have hnonneg : 0 ≤ (m : Int) * price := mul_nonneg (by omega) hp
    have hdep := sold_deposit self price m m (m * price)
      (by unfold no_available_primary_key; omega)
      (by unfold max_amount; omega) (by linarith)
    have h := Reachable.step (.on_token_transfer 11 self (uos price) "1") (ih hm) (by
      show wrap64 price = price
      unfold max_amount at hq
      unfold wrap64
      omega)
    rw [exec_on_token_transfer_ok hdep] at h
    have hmod : (m + 1) % 4294967296 = m + 1 := by omega
    rw [hmod, ← hmul] at h
    exact h

theorem on_token_transfer_seats_full {self : name} {s : State} {from_ : name}
    {quantity : asset} {memo : String} {r : raffletb} (hmemo : memo.isEmpty = false)
    (hfind : raffle_find s.raffles (to_uint64 (atoi memo)) = some r) (hw : r.winner = none)
    (hfull : r.allocated_seats = r.seats) (hlt : r.seats < 4294967295) :
    on_token_transfer self s from_ self quantity memo = .error "max seats allocated" := by
  unfold on_token_transfer
  have h1 : ¬ (self ≠ self ∨ memo.isEmpty = true) := by
    intro h; rcases h with h | h
    · exact h rfl
    · rw [hmemo] at h; cases h
  rw [if_neg h1]
  simp only [hfind, hw, Option.isSome_none, Bool.false_eq_true, if_false]
  have h2 : ¬ (r.seats ≥ (r.allocated_seats + 1) % 4294967296) := by
    rw [hfull]; omega
  simp only [h2, not_false_eq_true, if_true]

/-- C1: in every reachable state every row of `raffle.d` has
`allocated_seats <= seats`, and a deposit naming a raffle with
`allocated_seats = seats < 4294967295` fails with "max seats allocated"; but the
store in which a raffle of 4294967295 seats has sold them all is reachable, and
there the check `seats >= allocated_seats + 1` wraps around in `uint32_t`: one more
deposit is accepted, it stores a seat with key 4294967295 and sets
`allocated_seats` back to 0. -/
theorem seats_check_wraps_at_capacity_limit :
    (∀ (self : name) (s : State), Reachable self s →
      ∀ r ∈ s.raffles, r.allocated_seats ≤ r.seats) ∧
    (∀ (self : name) (s : State) (from_ : name) (quantity : asset) (memo : String)
      (r : raffletb), memo.isEmpty = false →
      raffle_find s.raffles (to_uint64 (atoi memo)) = some r → r.winner = none →
      r.allocated_seats = r.seats → r.seats < 4294967295 →
      on_token_transfer self s from_ self quantity memo = .error "max seats allocated") ∧
    Reachable 7 (sold 1 4294967295 4294967295 4294967295) ∧
    raffle_find (sold 1 4294967295 4294967295 4294967295).raffles (to_uint64 (atoi "1")) =
      some (sold_row 1 4294967295 4294967295) ∧
    (sold_row 1 4294967295 4294967295).allocated_seats =
      (sold_row 1 4294967295 4294967295).seats ∧
    on_token_transfer 7 (sold 1 4294967295 4294967295 4294967295) 11 7 (uos 1) "1" =
      .ok (sold 1 0 4294967296 4294967296) := by
  refine ⟨fun self s hs r hr => ((reachable_valid hs).rows r hr).allocated_le,
    fun self s from_ quantity memo r hm hf hw hfull hlt =>
      on_token_transfer_seats_full hm hf hw hfull hlt, ?_, rfl, rfl, ?_⟩
  · have h := sold_reachable 7 1 (by decide) (by decide) 4294967295 (le_refl _)
    simpa using h
  · exact sold_deposit 7 1 4294967295 4294967295 4294967295 (by decide) (by decide) (by decide)
theorem run_reachable (self : name) (acts : List Action) :
    ∀ s : State, Reachable self s → (∀ a ∈ acts, a.well_typed) →
      Reachable self (run self s acts) := by
  induction acts with
  | nil => intro s hs _; exact hs
  | cons a as ih =>
    intro s hs hty
    exact ih (exec self s a) (Reachable.step a hs (hty a (List.mem_cons_self a as)))
      (fun b hb => hty b (List.mem_cons_of_mem a hb))

theorem wrap64_of_range {x : Int} (h1 : -9223372036854775808 ≤ x) (h2 : x < 9223372036854775808) :
    wrap64 x = x := by
  unfold wrap64; omega

theorem share_amount_exact (f : Int) (r : Nat) (hf : 0 ≤ f)
    (h : f * r < 9223372036854775808) : share_amount f r = f * r / 10000 := by
  have h0 : 0 ≤ f * (r : Int) := mul_nonneg hf (Int.ofNat_nonneg r)
  unfold share_amount
  rw [wrap64_of_range (by omega) h, Int.tdiv_eq_ediv h0 (by decide)]

/-- C2: the three amounts of `shuffle` are the exact floors when
`funds.amount * basis_point` fits `int64_t`, and then 2.00 units at 300 basis
points split into 0.06, 0.05 and 1.89; but the product is computed in
`int64_t`: in the reachable store `large_pool`, funds `2^62 - 1` at 300 basis
points, `shuffle` pays a commission of 0 (the exact floor is
138350580552821637), keeps a fee of 922337203685477 (the exact floor is
115292150460684697) and pays the winner 4610763681223702426. -/
theorem shuffle_shares_wrap_int64 :
    (∀ (f : Int) (r : Nat), 0 ≤ f → f * r < 9223372036854775808 →
      share_amount f r = f * r / 10000) ∧
    (share_amount 200000000 300 = 6000000 ∧
      share_amount 200000000 contract_shares_basis_point = 5000000 ∧
      (200000000 : Int) - 6000000 - 5000000 = 189000000) ∧
    Reachable 7 large_pool ∧
    (∃ r, raffle_find large_pool.raffles 1 = some r ∧ r.funds.amount = 4611686018427387903 ∧
      r.comission_basis_point = 300) ∧
    (shuffle 7 [7] large_pool 1 0).map (fun p => p.2.map (fun t => (t.to_, t.quantity.amount))) =
      .ok [(9, 0), (11, 4610763681223702426)] ∧
    share_amount 4611686018427387903 300 = 0 ∧
    (4611686018427387903 : Int) * 300 / 10000 = 138350580552821637 ∧
    share_amount 4611686018427387903 contract_shares_basis_point = 922337203685477 ∧
    (4611686018427387903 : Int) * 250 / 10000 = 115292150460684697 := by
  refine ⟨share_amount_exact, ⟨by decide, by decide, by decide⟩, ?_, ⟨_, rfl, rfl, rfl⟩, rfl,
    by decide, by decide, by decide, by decide⟩
  exact run_reachable 7 _ State.empty Reachable.init (by decide)
theorem dispatch_ok_cases {self : name} {s s' : State} {a : Action} {out : List token_transfer}
    (h : dispatch self s a = .ok (s', out)) :
    (∃ auths seats seat_price bp payer, a = .create auths seats seat_price bp payer ∧
      create self auths s seats seat_price bp payer = .ok s') ∨
    (∃ auths raffle_id new_seats, a = .updateseats auths raffle_id new_seats ∧
      updateseats self auths s raffle_id new_seats = .ok s') ∨
    (∃ from_ to_ quantity memo, a = .on_token_transfer from_ to_ quantity memo ∧
      on_token_transfer self s from_ to_ quantity memo = .ok s') ∨
    (∃ auths raffle_id shuffled, a = .shuffle auths raffle_id shuffled ∧
      shuffle self auths s raffle_id shuffled = .ok (s', out)) ∨
    (∃ auths raffle_id, a = .invalidate auths raffle_id ∧
      invalidate self auths s raffle_id = .ok s') := by
  cases a with
  | create auths seats seat_price bp payer =>
    simp only [dispatch] at h
    cases hc : create self auths s seats seat_price bp payer with
    | error e => rw [hc] at h; cases h
    | ok s2 =>
      rw [hc] at h; cases h
      exact Or.inl ⟨_, _, _, _, _, rfl, hc⟩
  | updateseats auths raffle_id new_seats =>
    simp only [dispatch] at h
    cases hc : updateseats self auths s raffle_id new_seats with
    | error e => rw [hc] at h; cases h
    | ok s2 =>
      rw [hc] at h; cases h
      exact Or.inr (Or.inl ⟨_, _, _, rfl, hc⟩)
  | on_token_transfer from_ to_ quantity memo =>
    simp only [dispatch] at h
    cases hc : on_token_transfer self s from_ to_ quantity memo with
    | error e => rw [hc] at h; cases h
    | ok s2 =>
      rw [hc] at h; cases h
      exact Or.inr (Or.inr (Or.inl ⟨_, _, _, _, rfl, hc⟩))
  | shuffle auths raffle_id shuffled =>
    simp only [dispatch] at h
    exact Or.inr (Or.inr (Or.inr (Or.inl ⟨_, _, _, rfl, h⟩)))
  | invalidate auths raffle_id =>
    simp only [dispatch] at h
    cases hc : invalidate self auths s raffle_id with
    | error e => rw [hc] at h; cases h
    | ok s2 =>
      rw [hc] at h; cases h
      exact Or.inr (Or.inr (Or.inr (Or.inr ⟨_, _, rfl, hc⟩)))

theorem dispatch_resolved {self : name} {s s' : State} {a : Action}
    {out : List token_transfer} {raffle_id : Nat} {r : raffletb} {w : name}
    (hfind : raffle_find s.raffles raffle_id = some r) (hw : r.winner = some w)
    (h : dispatch self s a = .ok (s', out)) :
    raffle_find s'.raffles raffle_id = some r ∨
    ∃ auths new_seats, a = .updateseats auths raffle_id new_seats ∧ r.seats ≤ new_seats ∧
      raffle_find s'.raffles raffle_id = some { r with seats := new_seats } := by
  have hnot : ∀ {k : Nat} {r0 : raffletb}, raffle_find s.raffles k = some r0 →
      r0.winner = none → raffle_id ≠ k := by
    intro k r0 hk h0 e
    rw [← e, hfind] at hk
    cases hk
    rw [hw] at h0
    cases h0
  rcases dispatch_ok_cases h with ⟨_, _, _, _, _, _, hc⟩ | ⟨auths, k, new_seats, ha, hc⟩ |
    ⟨_, _, _, _, _, hc⟩ | ⟨_, k, _, _, hc⟩ | ⟨_, k, _, hc⟩
  · obtain ⟨_, _, _, _, pk, _, _, rfl⟩ := create_ok hc
    left
    show raffle_find (s.raffles ++ [_]) raffle_id = some r
    rw [raffle_find_append, hfind]
  · obtain ⟨_, r0, hr0, hle, rfl⟩ := updateseats_ok hc
    by_cases e : raffle_id = k
    · subst e
      rw [hfind] at hr0
      cases hr0
      refine Or.inr ⟨auths, new_seats, ha, hle, ?_⟩
      show raffle_find (raffle_modify _ _ _) raffle_id = _
      rw [raffle_find_modify_eq, hfind]
      · rfl
      · intro x; rfl
    · left
      show raffle_find (raffle_modify _ _ _) raffle_id = _
      rw [raffle_find_modify_ne, hfind]
      · intro x; rfl
      · exact e
  · rcases on_token_transfer_ok hc with ⟨_, rfl⟩ | ⟨_, _, r0, _, _, hr0, hw0, _, _, _, _, _, rfl⟩
    · exact Or.inl hfind
    · left
      show raffle_find (raffle_modify _ _ _) raffle_id = _
      rw [raffle_find_modify_ne, hfind]
      · intro x; rfl
      · exact hnot hr0 hw0
  · obtain ⟨_, r0, _, _, _, _, _, hr0, hw0, _, _, _, _, _, _, rfl, _⟩ := shuffle_ok hc
    left
    show raffle_find (raffle_modify _ _ _) raffle_id = _
    rw [raffle_find_modify_ne, hfind]
    · intro x; rfl
    · exact hnot hr0 hw0
  · obtain ⟨_, r0, hr0, hw0, rfl⟩ := invalidate_ok hc
    left
    show raffle_find (raffle_erase _ _) raffle_id = _
    rw [raffle_find_erase_ne _ _ _ (hnot hr0 hw0), hfind]

theorem exec_resolved (self : name) {s : State} (a : Action) {raffle_id : Nat} {r : raffletb}
    {w : name} (hfind : raffle_find s.raffles raffle_id = some r) (hw : r.winner = some w) :
    raffle_find (exec self s a).raffles raffle_id = some r ∨
    ∃ auths new_seats, a = .updateseats auths raffle_id new_seats ∧ r.seats ≤ new_seats ∧
      raffle_find (exec self s a).raffles raffle_id = some { r with seats := new_seats } := by
  unfold exec
  cases hd : dispatch self s a with
  | error e => exact Or.inl hfind
  | ok p =>
    obtain ⟨s', out⟩ := p
    exact dispatch_resolved hfind hw hd

theorem exec_winner_kept (self : name) {s : State} (a : Action) {raffle_id : Nat} {r : raffletb}
    {w : name} (hfind : raffle_find s.raffles raffle_id = some r) (hw : r.winner = some w) :
    ∃ r', raffle_find (exec self s a).raffles raffle_id = some r' ∧ r'.winner = some w := by
  rcases exec_resolved self a hfind hw with h | ⟨_, _, _, _, h⟩
  · exact ⟨r, h, hw⟩
  · exact ⟨_, h, hw⟩

theorem run_winner_kept (self : name) (acts : List Action) :
    ∀ (s : State) (raffle_id : Nat) (r : raffletb) (w : name),
      raffle_find s.raffles raffle_id = some r → r.winner = some w →
      ∃ r', raffle_find (run self s acts).raffles raffle_id = some r' ∧ r'.winner = some w := by
  induction acts with
  | nil => intro s raffle_id r w hfind hw; exact ⟨r, hfind, hw⟩
  | cons a as ih =>
    intro s raffle_id r w hfind hw
    obtain ⟨r1, h1, hw1⟩ := exec_winner_kept self a hfind hw
    exact ih (exec self s a) raffle_id r1 w h1 hw1

theorem shuffle_resolved {self : name} {auths : List name} {s : State} {raffle_id : Nat}
    {r : raffletb} {w : name} (hauth : has_auth auths self = true)
    (hfind : raffle_find s.raffles raffle_id = some r) (hw : r.winner = some w)
    (shuffled : Nat) :
    shuffle self auths s raffle_id shuffled = .error "this raffle already have a winner" := by
  unfold shuffle
  simp only [hauth, not_true_eq_false, if_false, hfind, hw, Option.isSome_some, if_true]

theorem shuffle_resolved_fails (self : name) {s : State} {raffle_id : Nat}
    {r : raffletb} {w : name} (hfind : raffle_find s.raffles raffle_id = some r)
    (hw : r.winner = some w) (auths : List name) (shuffled : Nat) :
    ∃ e, shuffle self auths s raffle_id shuffled = .error e := by
  by_cases hauth : has_auth auths self = true
  · exact ⟨_, shuffle_resolved hauth hfind hw shuffled⟩
  · refine ⟨"missing required authority", ?_⟩
    unfold shuffle
    rw [if_pos hauth]

/-- C3: on a raffle whose winner is set, `shuffle` called with the authority of
the contract fails with "this raffle already have a winner", `shuffle` called by
anyone leaves the store as it was, and after any sequence of calls of `create`,
`updateseats`, `on_token_transfer`, `shuffle` and `invalidate` the raffle is still
in the table with the same winner. -/
theorem winner_is_final (self : name) (s : State) (raffle_id : Nat) (r : raffletb) (w : name)
    (hfind : raffle_find s.raffles raffle_id = some r) (hw : r.winner = some w) :
    (∀ (auths : List name) (shuffled : Nat), has_auth auths self = true →
      shuffle self auths s raffle_id shuffled = .error "this raffle already have a winner") ∧
    (∀ (auths : List name) (shuffled : Nat),
      exec self s (.shuffle auths raffle_id shuffled) = s) ∧
    (∀ acts : List Action, ∃ r',
      raffle_find (run self s acts).raffles raffle_id = some r' ∧ r'.winner = some w) := by
  refine ⟨fun auths shuffled hauth => shuffle_resolved hauth hfind hw shuffled, ?_,
    fun acts => run_winner_kept self acts s raffle_id r w hfind hw⟩
  intro auths shuffled
  obtain ⟨e, he⟩ := shuffle_resolved_fails self hfind hw auths shuffled
  simp only [exec, dispatch, he]

/-- The raffle of `drawn` keeps its winner 12 through a resize, a deposit, a draw, an
invalidation and a creation. -/
theorem winner_is_final_witness :
    raffle_find drawn.raffles 1 = some drawn_row ∧ drawn_row.winner = some 12 ∧
    ∃ r', raffle_find (run 7 drawn
        [ .updateseats [7] 1 5, .on_token_transfer 13 7 (uos 100000000) "1",
          .shuffle [7] 1 0, .invalidate [7] 1,
          .create [7] 3 (uos 100000000) 400 9 ]).raffles 1 = some r' ∧
      r'.winner = some 12 :=
  ⟨rfl, rfl, (winner_is_final 7 drawn 1 drawn_row 12 rfl rfl).2.2 _⟩

/-- C4: on a raffle whose winner is set, every call other than `updateseats`
leaves the row as it is, field by field; but `updateseats` has no check of the
winner: in the reachable store `drawn`, whose raffle 1 has 2 seats and the winner
12, `updateseats(1, 5)` succeeds and the row has 5 seats afterwards. -/
theorem updateseats_changes_resolved_raffle :
    (∀ (self : name) (s : State) (a : Action) (raffle_id : Nat) (r : raffletb) (w : name),
      raffle_find s.raffles raffle_id = some r → r.winner = some w →
      (∀ auths new_seats, a ≠ .updateseats auths raffle_id new_seats) →
      raffle_find (exec self s a).raffles raffle_id = some r) ∧
    Reachable 7 drawn ∧
    raffle_find drawn.raffles 1 = some drawn_row ∧
    drawn_row.winner = some 12 ∧ drawn_row.seats = 2 ∧
    updateseats 7 [7] drawn 1 5 =
      .ok { drawn with raffles := [{ drawn_row with seats := 5 }] } ∧
    raffle_find (exec 7 drawn (.updateseats [7] 1 5)).raffles 1 =
      some { drawn_row with seats := 5 } := by
  refine ⟨?_, run_reachable 7 _ fresh
    (run_reachable 7 _ State.empty Reachable.init (by decide)) (by decide), rfl, rfl, rfl, rfl,
    rfl⟩
  intro self s a raffle_id r w hfind hw hne
  rcases exec_resolved self a hfind hw with h | ⟨auths, n, ha, _, _⟩
  · exact h
  · exact absurd ha (hne auths n)

theorem updateseats_eq_ok {self : name} {auths : List name} {s : State} {raffle_id new_seats : Nat}
    {r : raffletb} (hauth : has_auth auths self = true)
    (hfind : raffle_find s.raffles raffle_id = some r) (hle : r.seats ≤ new_seats) :
    updateseats self auths s raffle_id new_seats =
      .ok { s with raffles :=
        raffle_modify s.raffles raffle_id (fun r => { r with seats := new_seats }) } := by
  unfold updateseats
  simp only [hauth, not_true_eq_false, if_false, hfind, hle]

/-- C5: `updateseats` with the authority of the contract fails with "raffle id
does not exist" on an absent key, fails when `new_seats` is lower than the seats of
the raffle, and succeeds when it is greater, changing the field `seats` of that
row only; but the check is `seats <= new_seats`: in the reachable store `fresh`,
whose raffle 1 has 2 seats, `updateseats(1, 2)` succeeds, where its own message
("cannot be lower or equal") says it fails. -/
theorem updateseats_accepts_equal_seats :
    (∀ (self : name) (auths : List name) (s : State) (raffle_id new_seats : Nat),
      has_auth auths self = true → raffle_find s.raffles raffle_id = none →
      updateseats self auths s raffle_id new_seats = .error "raffle id does not exist") ∧
    (∀ (self : name) (auths : List name) (s : State) (raffle_id new_seats : Nat) (r : raffletb),
      has_auth auths self = true → raffle_find s.raffles raffle_id = some r →
      new_seats < r.seats →
      updateseats self auths s raffle_id new_seats =
        .error "the new number of seats cannot be lower or equal the actual seats") ∧
    (∀ (self : name) (auths : List name) (s : State) (raffle_id new_seats : Nat) (r : raffletb),
      has_auth auths self = true → raffle_find s.raffles raffle_id = some r →
      r.seats < new_seats →
      ∃ s', updateseats self auths s raffle_id new_seats = .ok s' ∧
        raffle_find s'.raffles raffle_id = some { r with seats := new_seats } ∧
        (∀ j, j ≠ raffle_id → raffle_find s'.raffles j = raffle_find s.raffles j) ∧
        s'.seats = s.seats) ∧
    Reachable 7 fresh ∧
    (∃ r, raffle_find fresh.raffles 1 = some r ∧ r.seats = 2) ∧
    updateseats 7 [7] fresh 1 2 = .ok fresh := by
  refine ⟨?_, ?_, ?_, run_reachable 7 _ State.empty Reachable.init (by decide),
    ⟨_, rfl, rfl⟩, rfl⟩
  · intro self auths s raffle_id new_seats hauth hfind
    unfold updateseats
    simp only [hauth, not_true_eq_false, if_false, hfind]
  · intro self auths s raffle_id new_seats r hauth hfind hlt
    unfold updateseats
    have : ¬ (r.seats ≤ new_seats) := by omega
    simp only [hauth, not_true_eq_false, if_false, hfind, this, not_false_eq_true, if_true]
  · intro self auths s raffle_id new_seats r hauth hfind hlt
    refine ⟨_, updateseats_eq_ok hauth hfind (Nat.le_of_lt hlt), ?_, ?_, rfl⟩
    · show raffle_find (raffle_modify _ _ _) raffle_id = _
      rw [raffle_find_modify_eq, hfind]
      · rfl
      · intro x; rfl
    · intro j hj
      show raffle_find (raffle_modify _ _ _) j = _
      rw [raffle_find_modify_ne]
      · intro x; rfl
      · exact hj
theorem exec_invalidate_error {self : name} {auths : List name} {s : State} {raffle_id : Nat}
    {e : String} (h : invalidate self auths s raffle_id = .error e) :
    exec self s (.invalidate auths raffle_id) = s := by
  simp only [exec, dispatch, h, Except.map]

theorem exec_invalidate_ok {self : name} {auths : List name} {s s' : State} {raffle_id : Nat}
    (h : invalidate self auths s raffle_id = .ok s') :
    exec self s (.invalidate auths raffle_id) = s' := by
  simp only [exec, dispatch, h, Except.map]

/-- C6: `invalidate` with the authority of the contract fails with "raffle id
does not exist" on an absent key and with "cannot invalidate a raffle with a
winner" on a raffle whose winner is set, the store staying as it was; on any
other raffle, whatever its `allocated_seats` and `funds`, it succeeds, the key is
absent afterwards and every other row of `raffle.d` and the table `seats.d` are
as before. -/
theorem invalidate_removes_unresolved (self : name) (auths : List name) (s : State)
    (raffle_id : Nat) (hauth : has_auth auths self = true) :
    (raffle_find s.raffles raffle_id = none →
      invalidate self auths s raffle_id = .error "raffle id does not exist" ∧
      exec self s (.invalidate auths raffle_id) = s) ∧
    (∀ r w, raffle_find s.raffles raffle_id = some r → r.winner = some w →
      invalidate self auths s raffle_id = .error "cannot invalidate a raffle with a winner" ∧
      exec self s (.invalidate auths raffle_id) = s) ∧
    (∀ r, raffle_find s.raffles raffle_id = some r → r.winner = none →
      ∃ s', invalidate self auths s raffle_id = .ok s' ∧
        exec self s (.invalidate auths raffle_id) = s' ∧
        raffle_find s'.raffles raffle_id = none ∧
        (∀ j, j ≠ raffle_id → raffle_find s'.raffles j = raffle_find s.raffles j) ∧
        s'.seats = s.seats) := by
  refine ⟨?_, ?_, ?_⟩
  · intro hfind
    have h : invalidate self auths s raffle_id = .error "raffle id does not exist" := by
      unfold invalidate
      simp only [hauth, not_true_eq_false, if_false, hfind]
    exact ⟨h, exec_invalidate_error h⟩
  · intro r w hfind hw
    have h : invalidate self auths s raffle_id =
        .error "cannot invalidate a raffle with a winner" := by
      unfold invalidate
      simp only [hauth, not_true_eq_false, if_false, hfind, hw, Option.isSome_some, if_true]
    exact ⟨h, exec_invalidate_error h⟩
  · intro r hfind hw
    have h : invalidate self auths s raffle_id =
        .ok { s with raffles := raffle_erase s.raffles raffle_id } := by
      unfold invalidate
      simp only [hauth, not_true_eq_false, if_false, hfind, hw, Option.isSome_none,
        Bool.false_eq_true]
    exact ⟨_, h, exec_invalidate_ok h, raffle_find_erase_eq _ _,
      fun j hj => raffle_find_erase_ne _ _ _ hj, rfl⟩

/-- The raffle of `funded`, with one seat sold and 1.00000000 UOS of funds, is removed
by `invalidate`. -/
theorem invalidate_removes_unresolved_witness :
    has_auth [7] 7 = true ∧
    (∃ r, raffle_find funded.raffles 1 = some r ∧ r.winner = none ∧ r.allocated_seats = 1 ∧
      r.funds = uos 100000000) ∧
    ∃ s', invalidate 7 [7] funded 1 = .ok s' ∧
      exec 7 funded (.invalidate [7] 1) = s' ∧
      raffle_find s'.raffles 1 = none ∧
      (∀ j, j ≠ 1 → raffle_find s'.raffles j = raffle_find funded.raffles j) ∧
      s'.seats = funded.seats :=
  ⟨rfl, ⟨_, rfl, rfl, rfl, rfl⟩,
    (invalidate_removes_unresolved 7 [7] funded 1 rfl).2.2 _ rfl rfl⟩

theorem available_primary_key_fresh {t : raffle_table} {pk : Nat}
    (h : available_primary_key (t.map (fun r => r.id)) = .ok pk) :
    (if pk = 0 then 1 else pk) ≠ 0 ∧ ∀ r ∈ t, r.id ≠ (if pk = 0 then 1 else pk) := by
  obtain ⟨_, hlt, hnil, hcons⟩ := available_primary_key_ok h
  constructor
  · split_ifs with h0
    · exact one_ne_zero
    · exact h0
  · intro r hr
    have hmem : r.id ∈ t.map (fun r => r.id) := List.mem_map_of_mem (fun r => r.id) hr
    have h1 := hlt r.id hmem
    have h2 := hcons (List.ne_nil_of_mem hmem)
    have h3 : pk ≠ 0 := by omega
    rw [if_neg h3]
    omega

theorem create_eq_ok {self : name} {auths : List name} {s : State} {seats : Nat}
    {seat_price : asset} {comission_basis_point : Nat} {comission_payer : name} {pk : Nat}
    (hauth : has_auth auths self = true) (hseats : 1 < seats)
    (hsym : seat_price.symbol = raffle_accepted_symbol) (hbp : 250 < comission_basis_point)
    (hpk : available_primary_key (s.raffles.map (fun r => r.id)) = .ok pk) :
    create self auths s seats seat_price comission_basis_point comission_payer =
      .ok { s with raffles := s.raffles ++
        [created_row (if pk = 0 then 1 else pk) seats seat_price comission_basis_point
          comission_payer] } := by
  have hnone : raffle_find s.raffles (if pk = 0 then 1 else pk) = none :=
    raffle_find_none.mpr (available_primary_key_fresh hpk).2
  have hz : asset_new 0 raffle_accepted_symbol =
      .ok { amount := 0, symbol := raffle_accepted_symbol } := rfl
  unfold create
  simp only [hauth, not_true_eq_false, if_false, hseats, gt_iff_lt, hsym, hbp, hpk, hz,
    raffle_emplace, hnone, Option.isSome_none, Bool.false_eq_true]
  rfl

/-- C7: `create` with the authority of the contract succeeds exactly when
`seats > 1`, the symbol of `seat_price` is the accepted one,
`comission_basis_point > 250` and the table has a key to give; so a commission of
exactly 250 basis points is rejected, with the message "comissions basis point
should be at least 250", and 251 is the least rate accepted. -/
theorem create_rejects_commission_250 :
    (∀ (self : name) (auths : List name) (s : State) (seats : Nat) (seat_price : asset)
      (comission_basis_point : Nat) (comission_payer : name), has_auth auths self = true →
      ((∃ s', create self auths s seats seat_price comission_basis_point comission_payer =
          .ok s') ↔
        (1 < seats ∧ seat_price.symbol = raffle_accepted_symbol ∧ 250 < comission_basis_point ∧
          ∃ pk, available_primary_key (s.raffles.map (fun r => r.id)) = .ok pk))) ∧
    create 7 [7] State.empty 2 (uos 100000000) 250 9 =
      .error "comissions basis point should be at least 250" ∧
    create 7 [7] State.empty 2 (uos 100000000) 251 9 =
      .ok { raffles := [created_row 1 2 (uos 100000000) 251 9], seats := [] } := by
  refine ⟨?_, rfl, rfl⟩
  intro self auths s seats seat_price bp payer hauth
  constructor
  · rintro ⟨s', h⟩
    obtain ⟨_, h2, h3, h4, pk, hpk, _, _⟩ := create_ok h
    exact ⟨h2, h3, h4, pk, hpk⟩
  · rintro ⟨h2, h3, h4, pk, hpk⟩
    exact ⟨_, create_eq_ok hauth h2 h3 h4 hpk⟩

/-- C8: when `create` succeeds, the key it issues is not 0 and is the key of no
row already in `raffle.d`; the table is the old one followed by the new row, which
holds the given `seats`, `seat_price`, `comission_basis_point` and
`comission_payer`, no allocated seat, funds of 0 in the accepted symbol and no
winner; every row found before is found unchanged and `seats.d` is as before.
Hence no reachable store has a row of `raffle.d` with key 0. -/
theorem create_issues_fresh_id (self : name) (auths : List name) (s s' : State) (seats : Nat)
    (seat_price : asset) (comission_basis_point : Nat) (comission_payer : name)
    (h : create self auths s seats seat_price comission_basis_point comission_payer = .ok s') :
    (∃ new_id, new_id ≠ 0 ∧ (∀ r ∈ s.raffles, r.id ≠ new_id) ∧
      raffle_find s.raffles new_id = none ∧
      s'.raffles = s.raffles ++
        [{ id := new_id, seats := seats, allocated_seats := 0, seat_price := seat_price,
           require_max_seats_allocated := false,
           comission_basis_point := comission_basis_point,
           comission_payer := comission_payer,
           funds := { amount := 0, symbol := raffle_accepted_symbol }, winner := none }] ∧
      raffle_find s'.raffles new_id =
        some { id := new_id, seats := seats, allocated_seats := 0, seat_price := seat_price,
               require_max_seats_allocated := false,
               comission_basis_point := comission_basis_point,
               comission_payer := comission_payer,
               funds := { amount := 0, symbol := raffle_accepted_symbol }, winner := none } ∧
      (∀ j r, raffle_find s.raffles j = some r → raffle_find s'.raffles j = some r) ∧
      s'.seats = s.seats) ∧
    (∀ t, Reachable self t → ∀ r ∈ t.raffles, r.id ≠ 0) := by
  obtain ⟨_, _, _, _, pk, hpk, hnone, rfl⟩ := create_ok h
  obtain ⟨hne, hfresh⟩ := available_primary_key_fresh hpk
  refine ⟨⟨_, hne, hfresh, hnone, rfl, ?_, ?_, rfl⟩,
    fun t ht r hr => ((reachable_valid ht).rows r hr).id_ne_zero⟩
  · show raffle_find (s.raffles ++ [_]) _ = _
    rw [raffle_find_append, hnone]
    exact if_pos rfl
  · intro j r hj
    show raffle_find (s.raffles ++ [_]) _ = _
    rw [raffle_find_append, hj]

/-- A second raffle created in `funded` gets the key 2. -/
theorem create_issues_fresh_id_witness :
    create 7 [7] funded 3 (uos 5) 400 9 =
      .ok { funded with raffles := funded.raffles ++ [created_row 2 3 (uos 5) 400 9] } ∧
    ∃ new_id, new_id ≠ 0 ∧ (∀ r ∈ funded.raffles, r.id ≠ new_id) ∧
      raffle_find funded.raffles new_id = none :=
  ⟨rfl,
    let ⟨new_id, h1, h2, h3, _⟩ :=
      (create_issues_fresh_id 7 [7] funded _ 3 (uos 5) 400 9 rfl).1
    ⟨new_id, h1, h2, h3⟩⟩
theorem seats_find_none_of_keys {t : seats_table} {scope k : Nat}
    (h : ∀ key ∈ seats_keys t scope, key ≠ k) : seats_find t scope k = none := by
  unfold seats_find
  rw [Option.map_eq_none', List.find?_eq_none]
  intro p hp hc
  simp only [Bool.and_eq_true, beq_iff_eq] at hc
  have hmem : p.2.id ∈ seats_keys t scope := by
    unfold seats_keys
    refine List.mem_map.mpr ⟨p, List.mem_filter.mpr ⟨hp, ?_⟩, rfl⟩
    simpa using hc.1
  exact h _ hmem hc.2

theorem on_token_transfer_eq_ok {self : name} {s : State} {from_ : name} {quantity : asset}
    {memo : String} {r : raffletb} {seat_id : Nat} {new_funds : asset}
    (hmemo : memo.isEmpty = false)
    (hfind : raffle_find s.raffles (to_uint64 (atoi memo)) = some r) (hw : r.winner = none)
    (hcap : (r.allocated_seats + 1) % 4294967296 ≤ r.seats)
    (hge : asset_ge quantity r.seat_price = .ok true)
    (hpk : available_primary_key (seats_keys s.seats (to_uint64 (atoi memo))) = .ok seat_id)
    (hadd : asset_add r.funds quantity = .ok new_funds) :
    on_token_transfer self s from_ self quantity memo =
      .ok { raffles := raffle_modify s.raffles (to_uint64 (atoi memo)) (fun r =>
              { r with allocated_seats := (r.allocated_seats + 1) % 4294967296,
                       funds := new_funds }),
            seats := s.seats ++
              [(to_uint64 (atoi memo), { id := seat_id, account := from_ })] } := by
  have h1 : ¬ (self ≠ self ∨ memo.isEmpty = true) := by
    intro h; rcases h with h | h
    · exact h rfl
    · rw [hmemo] at h; cases h
  have hnone : seats_find s.seats (to_uint64 (atoi memo)) seat_id = none :=
    seats_find_none_of_keys (fun key hkey =>
      Nat.ne_of_lt ((available_primary_key_ok hpk).2.1 key hkey))
  unfold on_token_transfer
  rw [if_neg h1]
  simp only [hfind, hw, Option.isSome_none, Bool.false_eq_true, if_false, ge_iff_le, hcap,
    not_true_eq_false, hge, hpk, seats_emplace, hnone, hadd]

theorem wrap64_add_exact {f q : Int} (hlo : -max_amount ≤ f) (hhi : f ≤ max_amount)
    (hq : wrap64 q = q) (h1 : -max_amount ≤ wrap64 (f + q)) (h2 : wrap64 (f + q) ≤ max_amount) :
    wrap64 (f + q) = f + q := by
  unfold max_amount at *
  unfold wrap64 at *
  omega

/-- C9: in a reachable store, a deposit to the contract whose memo names a raffle
without winner and with `allocated_seats < seats`, of a quantity (an `int64_t`
amount) in the symbol of `seat_price` and at least `seat_price`, when accepted
adds one row to `seats.d` under the key of the raffle, with the sender as account
and a key that was absent from that scope, adds 1 to `allocated_seats` and the
whole quantity to `funds`, and changes no other field of the row, no other row
of `raffle.d` and no other row of `seats.d`; and it is accepted when the new
funds are within the range of an asset and the scope has a key to give. -/
theorem deposit_allocates_one_seat (self : name) (s : State) (from_ : name) (quantity : asset)
    (memo : String) (r : raffletb) (hs : Reachable self s)
    (hq : wrap64 quantity.amount = quantity.amount) (hmemo : memo.isEmpty = false)
    (hfind : raffle_find s.raffles (to_uint64 (atoi memo)) = some r) (hw : r.winner = none)
    (hseats : r.allocated_seats < r.seats) (hsym : quantity.symbol = r.seat_price.symbol)
    (hamt : r.seat_price.amount ≤ quantity.amount) :
    (∀ s', on_token_transfer self s from_ self quantity memo = .ok s' →
      ∃ seat_id, seats_find s.seats r.id seat_id = none ∧
        s'.seats = s.seats ++ [(r.id, { id := seat_id, account := from_ })] ∧
        raffle_find s'.raffles r.id =
          some { r with allocated_seats := r.allocated_seats + 1,
                        funds := { r.funds with
                          amount := r.funds.amount + quantity.amount } } ∧
        (∀ j, j ≠ r.id → raffle_find s'.raffles j = raffle_find s.raffles j)) ∧
    (-max_amount ≤ r.funds.amount + quantity.amount →
      r.funds.amount + quantity.amount ≤ max_amount →
      (∃ seat_id, available_primary_key (seats_keys s.seats r.id) = .ok seat_id) →
      ∃ s', on_token_transfer self s from_ self quantity memo = .ok s') := by
  obtain ⟨hmem, hid⟩ := raffle_find_some hfind
  have hv := (reachable_valid hs).rows r hmem
  have hmod : (r.allocated_seats + 1) % 4294967296 = r.allocated_seats + 1 := by
    have := hv.seats_lt
    omega
  constructor
  · intro s' hok
    rcases on_token_transfer_ok hok with ⟨h, _⟩ | ⟨_, _, r0, seat_id, funds, hr0, _, _, _, _,
      hnone, hadd, rfl⟩
    · rcases h with h | h
      · exact absurd rfl h
      · rw [hmemo] at h; cases h
    · rw [hfind] at hr0
      cases hr0
      obtain ⟨_, hfsym, hfamt, hlo, hhi⟩ := asset_add_ok hadd
      rw [hfamt] at hlo hhi
      have hexact := wrap64_add_exact hv.funds_lower hv.funds_upper hq hlo hhi
      have hfunds : funds = { r.funds with amount := r.funds.amount + quantity.amount } := by
        cases funds
        simp only [asset.mk.injEq]
        exact ⟨hfamt.trans hexact, hfsym⟩
      have hfind' : raffle_find s.raffles r.id = some r := by rw [hid]; exact hfind
      rw [← hid] at hnone
      rw [← hid]
      refine ⟨seat_id, hnone, rfl, ?_, ?_⟩
      · show raffle_find (raffle_modify _ _ _) _ = _
        rw [raffle_find_modify_eq, hfind']
        · simp only [Option.map_some', hmod, hfunds]
        · intro x; rfl
      · intro j hj
        show raffle_find (raffle_modify _ _ _) _ = _
        rw [raffle_find_modify_ne]
        · intro x; rfl
        · exact hj
  · intro hlo hhi hkey
    obtain ⟨seat_id, hpk⟩ := hkey
    rw [hid] at hpk
    have hge : asset_ge quantity r.seat_price = .ok true := by
      unfold asset_ge
      simp only [hsym, not_true_eq_false, if_false, ge_iff_le, hamt, decide_True]
    have hwrap : wrap64 (r.funds.amount + quantity.amount) =
        r.funds.amount + quantity.amount := by
      unfold max_amount at hlo hhi
      exact wrap64_of_range (by omega) (by omega)
    have hadd : asset_add r.funds quantity =
        .ok { r.funds with amount := r.funds.amount + quantity.amount } := by
      unfold asset_add
      have hs2 : quantity.symbol = r.funds.symbol := by
        rw [hsym, hv.price_symbol, hv.funds_symbol]
      simp only [hs2, not_true_eq_false, if_false, hwrap, hlo, hhi]
    exact ⟨_, on_token_transfer_eq_ok hmemo hfind hw (by omega) hge hpk hadd⟩
/-- A deposit of 1.50000000 UOS by account 12 on the raffle of `funded` gives it the
seat with key 1 and adds the whole quantity to the funds. -/
theorem deposit_allocates_one_seat_witness :
    Reachable 7 funded ∧
    raffle_find funded.raffles (to_uint64 (atoi "1")) = some funded_row ∧
    on_token_transfer 7 funded 12 7 (uos 150000000) "1" =
      .ok { raffles := [{ funded_row with allocated_seats := 2, funds := uos 250000000 }],
            seats := [(1, { id := 0, account := 11 }), (1, { id := 1, account := 12 })] } ∧
    ∃ seat_id, seats_find funded.seats 1 seat_id = none ∧
      [(1, ({ id := 0, account := 11 } : seatstb)), (1, { id := 1, account := 12 })] =
        funded.seats ++ [(1, { id := seat_id, account := 12 })] ∧
      raffle_find [{ funded_row with allocated_seats := 2, funds := uos 250000000 }] 1 =
        some { funded_row with allocated_seats := 2, funds := uos 250000000 } :=
  have hreach : Reachable 7 funded :=
    run_reachable 7 _ fresh (run_reachable 7 _ State.empty Reachable.init (by decide))
      (by decide)
  ⟨hreach, rfl, rfl,
    let ⟨seat_id, h1, h2, h3, _⟩ :=
      (deposit_allocates_one_seat 7 funded 12 (uos 150000000) "1" funded_row hreach rfl rfl rfl
        rfl (by decide) rfl (by decide)).1 _ rfl
    ⟨seat_id, h1, h2, h3⟩⟩

theorem on_token_transfer_not_ignored {self : name} {memo : String}
    (hmemo : memo.isEmpty = false) : ¬ (self ≠ self ∨ memo.isEmpty = true) := by
  intro h; rcases h with h | h
  · exact h rfl
  · rw [hmemo] at h; cases h

/-- C10: a deposit to the contract with a non-empty memo fails, and the store
stays as it was, when the raffle named is absent, when its winner is set, when
`allocated_seats = seats < 4294967295`, and when the quantity is in another symbol
than `seat_price` or lower than it (0.50 against a price of 1.00 included); but
at `allocated_seats = seats = 4294967295`, a reachable store, the check
`seats >= allocated_seats + 1` wraps around in `uint32_t` and a deposit of 1.00
is accepted: a seat with key 4294967295 is stored and the funds grow. -/
theorem deposit_rejections_and_capacity_wrap :
    (∀ (self : name) (s : State) (from_ : name) (quantity : asset) (memo : String),
      memo.isEmpty = false → raffle_find s.raffles (to_uint64 (atoi memo)) = none →
      on_token_transfer self s from_ self quantity memo = .error "raffle id does not exist") ∧
    (∀ (self : name) (s : State) (from_ : name) (quantity : asset) (memo : String)
      (r : raffletb) (w : name), memo.isEmpty = false →
      raffle_find s.raffles (to_uint64 (atoi memo)) = some r → r.winner = some w →
      on_token_transfer self s from_ self quantity memo =
        .error "this raffle already have a winner") ∧
    (∀ (self : name) (s : State) (from_ : name) (quantity : asset) (memo : String)
      (r : raffletb), memo.isEmpty = false →
      raffle_find s.raffles (to_uint64 (atoi memo)) = some r → r.winner = none →
      r.allocated_seats = r.seats → r.seats < 4294967295 →
      on_token_transfer self s from_ self quantity memo = .error "max seats allocated") ∧
    (∀ (self : name) (s : State) (from_ : name) (quantity : asset) (memo : String)
      (r : raffletb), memo.isEmpty = false →
      raffle_find s.raffles (to_uint64 (atoi memo)) = some r → r.winner = none →
      (r.allocated_seats + 1) % 4294967296 ≤ r.seats →
      quantity.symbol ≠ r.seat_price.symbol →
      on_token_transfer self s from_ self quantity memo =
        .error "comparison of assets with different symbols is not allowed") ∧
    (∀ (self : name) (s : State) (from_ : name) (quantity : asset) (memo : String)
      (r : raffletb), memo.isEmpty = false →
      raffle_find s.raffles (to_uint64 (atoi memo)) = some r → r.winner = none →
      (r.allocated_seats + 1) % 4294967296 ≤ r.seats →
      quantity.symbol = r.seat_price.symbol → quantity.amount < r.seat_price.amount →
      on_token_transfer self s from_ self quantity memo =
        .error "quantity received is lower than seat price for this raffle") ∧
    (∀ (self : name) (s : State) (from_ to_ : name) (quantity : asset) (memo : String)
      (e : String), on_token_transfer self s from_ to_ quantity memo = .error e →
      exec self s (.on_token_transfer from_ to_ quantity memo) = s) ∧
    on_token_transfer 7 fresh 11 7 (uos 50000000) "1" =
      .error "quantity received is lower than seat price for this raffle" ∧
    Reachable 7 (sold 100000000 4294967295 4294967295 429496729500000000) ∧
    raffle_find (sold 100000000 4294967295 4294967295 429496729500000000).raffles
        (to_uint64 (atoi "1")) = some (sold_row 100000000 4294967295 429496729500000000) ∧
    (sold_row 100000000 4294967295 429496729500000000).allocated_seats =
      (sold_row 100000000 4294967295 429496729500000000).seats ∧
    on_token_transfer 7 (sold 100000000 4294967295 4294967295 429496729500000000) 11 7
        (uos 100000000) "1" =
      .ok (sold 100000000 0 4294967296 429496729600000000) := by
  refine ⟨?_, ?_, ?_, ?_, ?_, ?_, rfl, ?_, rfl, rfl, ?_⟩
  · intro self s from_ quantity memo hmemo hfind
    unfold on_token_transfer
    rw [if_neg (on_token_transfer_not_ignored hmemo)]
    simp only [hfind]
  · intro self s from_ quantity memo r w hmemo hfind hw
    unfold on_token_transfer
    rw [if_neg (on_token_transfer_not_ignored hmemo)]
    simp only [hfind, hw, Option.isSome_some, if_true]
  · intro self s from_ quantity memo r hmemo hfind hw hfull hlt
    exact on_token_transfer_seats_full hmemo hfind hw hfull hlt
  · intro self s from_ quantity memo r hmemo hfind hw hcap hsym
    unfold on_token_transfer
    rw [if_neg (on_token_transfer_not_ignored hmemo)]
    simp only [hfind, hw, Option.isSome_none, Bool.false_eq_true, if_false, ge_iff_le, hcap,
      not_true_eq_false, asset_ge, hsym, not_false_eq_true, if_true]
  · intro self s from_ quantity memo r hmemo hfind hw hcap hsym hamt
    have hd : decide (quantity.amount ≥ r.seat_price.amount) = false := by
      simp only [ge_iff_le, decide_eq_false_iff_not, not_le]
      exact hamt
    unfold on_token_transfer
    rw [if_neg (on_token_transfer_not_ignored hmemo)]
    simp only [hfind, hw, Option.isSome_none, Bool.false_eq_true, if_false, ge_iff_le, hcap,
      not_true_eq_false, asset_ge, hsym, hd]
  · intro self s from_ to_ quantity memo e h
    exact exec_on_token_transfer_error h
  · have h := sold_reachable 7 100000000 (by decide) (by decide) 4294967295 (le_refl _)
    simpa using h
  · exact sold_deposit 7 100000000 4294967295 4294967295 429496729500000000 (by decide)
      (by decide) (by decide)

/-- C11: a notification whose recipient is not the contract, or whose memo is
empty, is accepted without error and leaves the store as it is, whatever the
sender, the quantity and the store. -/
theorem on_token_transfer_ignored (self : name) (s : State) (from_ to_ : name) (quantity : asset)
    (memo : String) (h : to_ ≠ self ∨ memo.isEmpty = true) :
    on_token_transfer self s from_ to_ quantity memo = .ok s ∧
    exec self s (.on_token_transfer from_ to_ quantity memo) = s := by
  have hok : on_token_transfer self s from_ to_ quantity memo = .ok s := by
    unfold on_token_transfer
    rw [if_pos h]
  exact ⟨hok, exec_on_token_transfer_ok hok⟩

/-- A transfer between two other accounts with memo "1", and a transfer to the
contract with an empty memo, leave the store `funded` as it is. -/
theorem on_token_transfer_ignored_witness :
    ((11 : name) ≠ 7 ∨ ("1" : String).isEmpty = true) ∧
    ((7 : name) ≠ 7 ∨ ("" : String).isEmpty = true) ∧
    on_token_transfer 7 funded 12 11 (uos 100000000) "1" = .ok funded ∧
    on_token_transfer 7 funded 12 7 (uos 100000000) "" = .ok funded :=
  ⟨Or.inl (by decide), Or.inr (by decide),
    (on_token_transfer_ignored 7 funded 12 11 (uos 100000000) "1" (Or.inl (by decide))).1,
    (on_token_transfer_ignored 7 funded 12 7 (uos 100000000) "" (Or.inr (by decide))).1⟩

theorem atoi_digits_no_digit {cs : List Char} (h : no_digit_ahead cs = true) (n : Int) :
    atoi_digits cs n = n := by
  cases cs with
  | nil => rfl
  | cons c cs =>
    have hc : isdigit c = false := by simpa [no_digit_ahead] using h
    simp only [atoi_digits, hc, Bool.false_eq_true, if_false]

theorem atoi_no_numeral {memo : String} (h : no_numeral memo = true) : atoi memo = 0 := by
  unfold no_numeral at h
  unfold atoi
  cases hd : memo.data.dropWhile isspace with
  | nil => rfl
  | cons c cs =>
    rw [hd] at h
    simp only at h ⊢
    by_cases h45 : c.toNat = 45
    · simp only [h45, true_or, if_true] at h ⊢
      exact atoi_digits_no_digit h 0
    · by_cases h43 : c.toNat = 43
      · simp only [h43, or_true, if_true] at h
        simp only [h45, h43, if_false, if_true]
        rw [atoi_digits_no_digit h 0]
        rfl
      · simp only [h45, h43, or_self, if_false] at h ⊢
        rw [atoi_digits_no_digit h 0]
        rfl

theorem atoi_digits_append {ds rest : List Char} (hds : ∀ c ∈ ds, isdigit c = true)
    (hrest : no_digit_ahead rest = true) (n : Int) :
    atoi_digits (ds ++ rest) n = atoi_digits ds n := by
  induction ds generalizing n with
  | nil => rw [List.nil_append, atoi_digits_no_digit hrest]; rfl
  | cons d ds ih =>
    have hd : isdigit d = true := hds d (List.mem_cons_self d ds)
    simp only [List.cons_append, atoi_digits, hd, if_true]
    exact ih (fun c hc => hds c (List.mem_cons_of_mem d hc)) _

theorem isdigit_not_space_or_sign {c : Char} (h : isdigit c = true) :
    isspace c = false ∧ c.toNat ≠ 45 ∧ c.toNat ≠ 43 := by
  unfold isdigit at h
  unfold isspace
  simp only [Bool.and_eq_true, decide_eq_true_eq] at h
  refine ⟨?_, by omega, by omega⟩
  simp only [Bool.or_eq_false_iff, Bool.and_eq_false_iff, beq_eq_false_iff_ne, ne_eq,
    decide_eq_false_iff_not, not_le]
  omega

theorem dropWhile_isspace_append {ws cs : List Char} (hws : ∀ c ∈ ws, isspace c = true) :
    (ws ++ cs).dropWhile isspace = cs.dropWhile isspace := by
  induction ws with
  | nil => rfl
  | cons w ws ih =>
    have hw : isspace w = true := hws w (List.mem_cons_self w ws)
    rw [List.cons_append, List.dropWhile_cons, if_pos hw]
    exact ih (fun c hc => hws c (List.mem_cons_of_mem w hc))

theorem atoi_numeral_ahead {memo : String} {ws ds rest : List Char}
    (hmemo : memo.data = ws ++ (ds ++ rest)) (hws : ∀ c ∈ ws, isspace c = true)
    (hne : ds ≠ []) (hds : ∀ c ∈ ds, isdigit c = true) (hrest : no_digit_ahead rest = true) :
    atoi memo = atoi (String.mk ds) := by
  cases ds with
  | nil => exact absurd rfl hne
  | cons d ds =>
    obtain ⟨hsp, h45, h43⟩ := isdigit_not_space_or_sign (hds d (List.mem_cons_self d ds))
    unfold atoi
    rw [hmemo, dropWhile_isspace_append hws]
    simp only [List.cons_append, List.dropWhile_cons, hsp, Bool.false_eq_true, if_false, h45, h43]
    rw [← List.cons_append, atoi_digits_append hds hrest]

theorem isEmpty_of_data_ne_nil {memo : String} (h : memo.data ≠ []) : memo.isEmpty = false := by
  cases he : memo.isEmpty with
  | false => rfl
  | true =>
    rw [String.isEmpty_iff] at he
    rw [he] at h
    exact absurd rfl h
/-- C12, the claim fails: in the reachable store `fresh` the deposits with the
memos "1abc", " 1" and "1.5" are accepted and credited to raffle 1, which gets a
seat and the funds. -/
theorem memo_with_numeral_ahead_is_credited :
    Reachable 7 fresh ∧
    on_token_transfer 7 fresh 11 7 (uos 100000000) "1abc" = .ok funded ∧
    on_token_transfer 7 fresh 11 7 (uos 100000000) " 1" = .ok funded ∧
    on_token_transfer 7 fresh 11 7 (uos 100000000) "1.5" = .ok funded ∧
    raffle_find funded.raffles 1 = some funded_row ∧
    funded_row.allocated_seats = 1 ∧ funded_row.funds = uos 100000000 ∧
    seats_find funded.seats 1 0 = some { id := 0, account := 11 } ∧
    seats_find fresh.seats 1 0 = none :=
  ⟨run_reachable 7 _ State.empty Reachable.init (by decide), rfl, rfl, rfl, rfl, rfl, rfl, rfl,
    rfl⟩

/-- C12, amended: in a reachable store, a deposit to the contract whose memo is
not empty and has no decimal digit after its leading white space and optional
sign fails with "raffle id does not exist" and leaves the store as it is; and a
memo made of white space, a decimal numeral and text that starts with no digit
is handled as the numeral alone. -/
theorem memo_is_read_by_atoi (self : name) (s : State) (from_ : name) (quantity : asset)
    (memo : String) (hs : Reachable self s) (hmemo : memo.isEmpty = false) :
    (no_numeral memo = true →
      on_token_transfer self s from_ self quantity memo = .error "raffle id does not exist" ∧
      exec self s (.on_token_transfer from_ self quantity memo) = s) ∧
    (∀ ws ds rest : List Char, memo.data = ws ++ (ds ++ rest) →
      (∀ c ∈ ws, isspace c = true) → ds ≠ [] → (∀ c ∈ ds, isdigit c = true) →
      no_digit_ahead rest = true →
      on_token_transfer self s from_ self quantity memo =
        on_token_transfer self s from_ self quantity (String.mk ds)) := by
  constructor
  · intro hno
    have hkey : to_uint64 (atoi memo) = 0 := by rw [atoi_no_numeral hno]; rfl
    have hnone : raffle_find s.raffles (to_uint64 (atoi memo)) = none := by
      rw [hkey, raffle_find_none]
      exact fun r hr => ((reachable_valid hs).rows r hr).id_ne_zero
    have herr : on_token_transfer self s from_ self quantity memo =
        .error "raffle id does not exist" := by
      unfold on_token_transfer
      rw [if_neg (on_token_transfer_not_ignored hmemo)]
      simp only [hnone]
    exact ⟨herr, exec_on_token_transfer_error herr⟩
  · intro ws ds rest hdata hws hne hds hrest
    have hmemo2 : (String.mk ds).isEmpty = false := isEmpty_of_data_ne_nil hne
    unfold on_token_transfer
    rw [if_neg (on_token_transfer_not_ignored hmemo),
      if_neg (on_token_transfer_not_ignored hmemo2), atoi_numeral_ahead hdata hws hne hds hrest]

/-- In the store `funded` the memo "abc" is rejected, and the memo " 12abc" is
handled as "12". -/
theorem memo_is_read_by_atoi_witness :
    Reachable 7 funded ∧ ("abc" : String).isEmpty = false ∧ no_numeral "abc" = true ∧
    on_token_transfer 7 funded 12 7 (uos 100000000) "abc" = .error "raffle id does not exist" ∧
    (" 12abc" : String).isEmpty = false ∧
    on_token_transfer 7 funded 12 7 (uos 100000000) " 12abc" =
      on_token_transfer 7 funded 12 7 (uos 100000000) (String.mk ['1', '2']) :=
  have hreach : Reachable 7 funded :=
    run_reachable 7 _ fresh (run_reachable 7 _ State.empty Reachable.init (by decide))
      (by decide)
  ⟨hreach, rfl, rfl,
    ((memo_is_read_by_atoi 7 funded 12 (uos 100000000) "abc" hreach rfl).1 rfl).1,
    rfl,
    (memo_is_read_by_atoi 7 funded 12 (uos 100000000) " 12abc" hreach rfl).2
      [' '] ['1', '2'] ['a', 'b', 'c'] rfl (by decide) (by decide) (by decide) rfl⟩
theorem seats_keys_append (t : seats_table) (k : Nat) (row : seatstb) (scope : Nat) :
    seats_keys (t ++ [(k, row)]) scope =
      seats_keys t scope ++ (if k = scope then [row.id] else []) := by
  unfold seats_keys
  rw [List.filter_append, List.map_append]
  congr 1
  by_cases h : k = scope
  · simp [h]
  · simp [h]

theorem available_primary_key_range_ok {n pk : Nat}
    (h : available_primary_key (List.range n) = .ok pk) : pk = n := by
  obtain ⟨_, _, hnil, hcons⟩ := available_primary_key_ok h
  cases n with
  | zero => exact hnil rfl
  | succ m =>
    have hne : List.range (m + 1) ≠ [] := by
      rw [List.range_succ]; simp
    rw [hcons hne, last_pk_range]

theorem seats_count_append (t : seats_table) (k : Nat) (row : seatstb) (scope : Nat) :
    seats_count (t ++ [(k, row)]) scope = seats_count t scope + (if k = scope then 1 else 0) := by
  unfold seats_count
  rw [seats_keys_append, List.length_append]
  split_ifs <;> rfl

theorem create_dense {self : name} {auths : List name} {s s' : State} {seats : Nat}
    {seat_price : asset} {comission_basis_point : Nat} {comission_payer : name}
    (hs : s.dense)
    (h : create self auths s seats seat_price comission_basis_point comission_payer = .ok s') :
    s'.dense := by
  obtain ⟨_, _, _, _, pk, _, _, rfl⟩ := create_ok h
  refine ⟨hs.keys, ?_⟩
  intro r hr
  rcases List.mem_append.mp hr with hr | hr
  · exact hs.allocated r hr
  · rw [List.mem_singleton] at hr
    subst hr
    exact Nat.zero_le _

theorem updateseats_dense {self : name} {auths : List name} {s s' : State}
    {raffle_id new_seats : Nat} (hs : s.dense)
    (h : updateseats self auths s raffle_id new_seats = .ok s') : s'.dense := by
  obtain ⟨_, r0, _, _, rfl⟩ := updateseats_ok h
  refine ⟨hs.keys, ?_⟩
  intro x hx
  rcases mem_raffle_modify hx with hx | ⟨r, hr, _, rfl⟩
  · exact hs.allocated x hx
  · exact hs.allocated r hr

theorem shuffle_dense {self : name} {auths : List name} {s s' : State} {raffle_id shuffled : Nat}
    {out : List token_transfer} (hs : s.dense)
    (h : shuffle self auths s raffle_id shuffled = .ok (s', out)) : s'.dense := by
  obtain ⟨_, r0, _, _, _, _, seat, _, _, _, _, _, _, _, _, rfl, _⟩ := shuffle_ok h
  refine ⟨hs.keys, ?_⟩
  intro x hx
  rcases mem_raffle_modify hx with hx | ⟨r, hr, _, rfl⟩
  · exact hs.allocated x hx
  · exact hs.allocated r hr

theorem invalidate_dense {self : name} {auths : List name} {s s' : State} {raffle_id : Nat}
    (hs : s.dense) (h : invalidate self auths s raffle_id = .ok s') : s'.dense := by
  obtain ⟨_, r0, _, _, rfl⟩ := invalidate_ok h
  exact ⟨hs.keys, fun x hx => hs.allocated x (List.mem_of_mem_filter hx)⟩

theorem on_token_transfer_dense {self : name} {s s' : State} {from_ to_ : name}
    {quantity : asset} {memo : String} (hs : s.dense)
    (h : on_token_transfer self s from_ to_ quantity memo = .ok s') : s'.dense := by
  rcases on_token_transfer_ok h with ⟨_, rfl⟩ | ⟨_, _, r0, seat_id, funds, _, _, _, _, hpk, _,
    _, rfl⟩
  · exact hs
  · rw [hs.keys] at hpk
    have hid := available_primary_key_range_ok hpk
    constructor
    · intro scope
      show seats_keys (s.seats ++ [_]) scope = List.range (seats_count (s.seats ++ [_]) scope)
      rw [seats_keys_append, seats_count_append, hs.keys scope]
      by_cases hk : to_uint64 (atoi memo) = scope
      · subst hk
        simp only [if_true, hid, List.range_succ]
      · simp only [hk, if_false, List.append_nil, Nat.add_zero]
    · intro x hx
      show x.allocated_seats ≤ seats_count (s.seats ++ [_]) x.id
      rw [seats_count_append]
      rcases mem_raffle_modify hx with hx | ⟨r, hr, hk, rfl⟩
      · exact Nat.le_add_right_of_le (hs.allocated x hx)
      · have h1 := hs.allocated r hr
        show (r.allocated_seats + 1) % 4294967296 ≤
          seats_count s.seats r.id + (if to_uint64 (atoi memo) = r.id then 1 else 0)
        rw [if_pos hk.symm]
        have h2 : (r.allocated_seats + 1) % 4294967296 ≤ r.allocated_seats + 1 :=
          Nat.mod_le _ _
        omega

theorem exec_dense (self : name) {s : State} (a : Action) (hs : s.dense) :
    (exec self s a).dense := by
  unfold exec
  cases hd : dispatch self s a with
  | error e => exact hs
  | ok p =>
    obtain ⟨s', out⟩ := p
    show s'.dense
    rcases dispatch_ok_cases hd with ⟨_, _, _, _, _, _, hc⟩ | ⟨_, _, _, _, hc⟩ |
      ⟨_, _, _, _, _, hc⟩ | ⟨_, _, _, _, hc⟩ | ⟨_, _, _, hc⟩
    · exact create_dense hs hc
    · exact updateseats_dense hs hc
    · exact on_token_transfer_dense hs hc
    · exact shuffle_dense hs hc
    · exact invalidate_dense hs hc

theorem reachable_dense {self : name} {s : State} (h : Reachable self s) : s.dense := by
  induction h with
  | init => exact State.dense.mk (fun scope => rfl) (fun r hr => by cases hr)
  | step a _ _ ih => exact exec_dense self a ih
theorem asset_new_error {a : Int} {sym : symbol} {e : String} (h : asset_new a sym = .error e) :
    e = "magnitude of asset amount must be less than 2^62" := by
  unfold asset_new at h
  split_ifs at h
  exact (Except.error.inj h).symm

theorem asset_sub_error {a b : asset} {e : String} (h : asset_sub a b = .error e) :
    e = "attempt to subtract asset with different symbol" ∨ e = "subtraction underflow" ∨
      e = "subtraction overflow" := by
  simp only [asset_sub] at h
  split_ifs at h
  all_goals first
    | exact Or.inl (Except.error.inj h).symm
    | exact Or.inr (Or.inl (Except.error.inj h).symm)
    | exact Or.inr (Or.inr (Except.error.inj h).symm)

theorem shuffle_error_cases {self : name} {auths : List name} {s : State}
    {raffle_id shuffled : Nat} {e : String}
    (h : shuffle self auths s raffle_id shuffled = .error e) :
    e = "missing required authority" ∨ e = "raffle id does not exist" ∨
    e = "this raffle already have a winner" ∨
    (e = "seats are not full allocated yet" ∧
      ∃ r, raffle_find s.raffles raffle_id = some r ∧ r.require_max_seats_allocated = true ∧
        r.allocated_seats ≠ r.seats) ∨
    e = "magnitude of asset amount must be less than 2^62" ∨
    e = "attempt to subtract asset with different symbol" ∨ e = "subtraction underflow" ∨
    e = "subtraction overflow" ∨
    (e = "shuddled id does not exist" ∧ seats_find s.seats raffle_id shuffled = none) := by
  unfold shuffle at h
  by_cases h1 : has_auth auths self = true
  swap
  · rw [if_pos h1] at h
    exact Or.inl (Except.error.inj h).symm
  rw [if_neg (not_not.mpr h1)] at h
  cases hr : raffle_find s.raffles raffle_id with
  | none =>
    rw [hr] at h
    exact Or.inr (Or.inl (Except.error.inj h).symm)
  | some r =>
    rw [hr] at h
    dsimp only at h
    by_cases h2 : r.winner.isSome = true
    · rw [if_pos h2] at h
      exact Or.inr (Or.inr (Or.inl (Except.error.inj h).symm))
    rw [if_neg h2] at h
    by_cases h3 : r.require_max_seats_allocated = true ∧ ¬ r.allocated_seats = r.seats
    · rw [if_pos h3] at h
      exact Or.inr (Or.inr (Or.inr (Or.inl ⟨(Except.error.inj h).symm, r, rfl, h3.1, h3.2⟩)))
    rw [if_neg h3] at h
    cases hc : asset_new (share_amount r.funds.amount r.comission_basis_point)
        raffle_accepted_symbol with
    | error e1 =>
      rw [hc] at h
      cases h
      exact Or.inr (Or.inr (Or.inr (Or.inr (Or.inl (asset_new_error hc)))))
    | ok c =>
      rw [hc] at h
      dsimp only at h
      cases hp : asset_new (share_amount r.funds.amount contract_shares_basis_point)
          raffle_accepted_symbol with
      | error e1 =>
        rw [hp] at h
        cases h
        exact Or.inr (Or.inr (Or.inr (Or.inr (Or.inl (asset_new_error hp)))))
      | ok p =>
        rw [hp] at h
        dsimp only at h
        cases h4 : asset_sub r.funds c with
        | error e1 =>
          rw [h4] at h
          cases h
          rcases asset_sub_error h4 with h' | h' | h'
          · exact Or.inr (Or.inr (Or.inr (Or.inr (Or.inr (Or.inl h')))))
          · exact Or.inr (Or.inr (Or.inr (Or.inr (Or.inr (Or.inr (Or.inl h'))))))
          · exact Or.inr (Or.inr (Or.inr (Or.inr (Or.inr (Or.inr (Or.inr (Or.inl h')))))))
        | ok rest =>
          rw [h4] at h
          dsimp only at h
          cases h5 : asset_sub rest p with
          | error e1 =>
            rw [h5] at h
            cases h
            rcases asset_sub_error h5 with h' | h' | h'
            · exact Or.inr (Or.inr (Or.inr (Or.inr (Or.inr (Or.inl h')))))
            · exact Or.inr (Or.inr (Or.inr (Or.inr (Or.inr (Or.inr (Or.inl h'))))))
            · exact Or.inr (Or.inr (Or.inr (Or.inr (Or.inr (Or.inr (Or.inr (Or.inl h')))))))
          | ok pot =>
            rw [h5] at h
            dsimp only at h
            cases h6 : seats_find s.seats raffle_id shuffled with
            | none =>
              rw [h6] at h
              exact Or.inr (Or.inr (Or.inr (Or.inr (Or.inr (Or.inr (Or.inr (Or.inr
                ⟨(Except.error.inj h).symm, rfl⟩)))))))
            | some seat =>
              rw [h6] at h
              cases h

theorem shuffle_error_seat {self : name} {auths : List name} {s : State}
    {raffle_id shuffled : Nat}
    (h : shuffle self auths s raffle_id shuffled = .error "shuddled id does not exist") :
    seats_find s.seats raffle_id shuffled = none := by
  rcases shuffle_error_cases h with h' | h' | h' | ⟨h', _⟩ | h' | h' | h' | h' | ⟨_, h'⟩
  · exact absurd h' (by decide)
  · exact absurd h' (by decide)
  · exact absurd h' (by decide)
  · exact absurd h' (by decide)
  · exact absurd h' (by decide)
  · exact absurd h' (by decide)
  · exact absurd h' (by decide)
  · exact absurd h' (by decide)
  · exact h'

theorem shuffle_error_not_ready {self : name} {auths : List name} {s : State}
    {raffle_id shuffled : Nat}
    (h : shuffle self auths s raffle_id shuffled = .error "seats are not full allocated yet") :
    ∃ r, raffle_find s.raffles raffle_id = some r ∧ r.require_max_seats_allocated = true ∧
      r.allocated_seats ≠ r.seats := by
  rcases shuffle_error_cases h with h' | h' | h' | ⟨_, h'⟩ | h' | h' | h' | h' | ⟨h', _⟩
  · exact absurd h' (by decide)
  · exact absurd h' (by decide)
  · exact absurd h' (by decide)
  · exact h'
  · exact absurd h' (by decide)
  · exact absurd h' (by decide)
  · exact absurd h' (by decide)
  · exact absurd h' (by decide)
  · exact absurd h' (by decide)

theorem seats_find_of_mem_keys {t : seats_table} {scope k : Nat}
    (h : k ∈ seats_keys t scope) : ∃ seat, seats_find t scope k = some seat ∧ seat.id = k := by
  unfold seats_keys at h
  obtain ⟨p, hp, hid⟩ := List.mem_map.mp h
  obtain ⟨hpt, hscope⟩ := List.mem_filter.mp hp
  unfold seats_find
  cases hf : t.find? (fun p => p.1 == scope && p.2.id == k) with
  | none =>
    rw [List.find?_eq_none] at hf
    have := hf p hpt
    simp only [Bool.and_eq_true, beq_iff_eq, not_and] at this
    exact absurd hid (this (by simpa using hscope))
  | some q =>
    have hq := List.find?_some hf
    simp only [Bool.and_eq_true, beq_iff_eq] at hq
    exact ⟨q.2, rfl, hq.2⟩
theorem reissued_reachable : Reachable 7 reissued :=
  run_reachable 7 _ funded
    (run_reachable 7 _ fresh (run_reachable 7 _ State.empty Reachable.init (by decide))
      (by decide)) (by decide)

/-- C13: in every reachable store `allocated_seats` is at most the number of
rows of `seats.d` under the key of the raffle; but `invalidate` erases the row of
`raffle.d` only and `create` issues the largest key plus one: after create,
one deposit, invalidate and create, the reachable store `reissued` has a raffle
with key 1 and `allocated_seats = 0` whose scope holds the seat of the earlier
deposit. -/
theorem allocated_seats_below_seat_rows :
    (∀ (self : name) (s : State), Reachable self s →
      ∀ r ∈ s.raffles, r.allocated_seats ≤ seats_count s.seats r.id) ∧
    reissued = run 7 State.empty
      [ .create [7] 2 (uos 100000000) 300 9,
        .on_token_transfer 11 7 (uos 100000000) "1",
        .invalidate [7] 1,
        .create [7] 2 (uos 100000000) 300 9 ] ∧
    Reachable 7 reissued ∧
    raffle_find reissued.raffles 1 = some (created_row 1 2 (uos 100000000) 300 9) ∧
    (created_row 1 2 (uos 100000000) 300 9).allocated_seats = 0 ∧
    reissued.seats = [(1, { id := 0, account := 11 })] ∧
    seats_count reissued.seats 1 = 1 :=
  ⟨fun _ _ hs => (reachable_dense hs).allocated, rfl, reissued_reachable, rfl, rfl, rfl, rfl⟩

/-- C18: the winner a successful `shuffle` records is the account of the row of
`seats.d` with the drawn key under the key of the raffle; but that row need not
come from a deposit to the present raffle: in the reachable store `replayed` the
second raffle with key 1 has one seat allocated, bought by account 12 and stored
with key 1, the only draw below `allocated_seats` is 0, and `shuffle` with 0 pays
and records account 11, whose deposit was made to the raffle invalidated
before. -/
theorem shuffle_draws_stale_seat :
    (∀ (self : name) (auths : List name) (s s' : State) (raffle_id shuffled : Nat)
      (out : List token_transfer), shuffle self auths s raffle_id shuffled = .ok (s', out) →
      ∃ seat r', seats_find s.seats raffle_id shuffled = some seat ∧
        raffle_find s'.raffles raffle_id = some r' ∧ r'.winner = some seat.account) ∧
    replayed = run 7 State.empty
      [ .create [7] 2 (uos 100000000) 300 9,
        .on_token_transfer 11 7 (uos 100000000) "1",
        .invalidate [7] 1,
        .create [7] 2 (uos 100000000) 300 9,
        .on_token_transfer 12 7 (uos 100000000) "1" ] ∧
    Reachable 7 replayed ∧
    (∃ r, raffle_find replayed.raffles 1 = some r ∧ r.allocated_seats = 1 ∧
      r.funds = uos 100000000 ∧ r.winner = none) ∧
    replayed.seats = [(1, { id := 0, account := 11 }), (1, { id := 1, account := 12 })] ∧
    seats_find replayed.seats 1 0 = some { id := 0, account := 11 } ∧
    (shuffle 7 [7] replayed 1 0).map
        (fun p => (raffle_find p.1.raffles 1 |>.map (fun r => r.winner),
          p.2.map (fun t => (t.to_, t.quantity.amount)))) =
      .ok (some (some 11), [(9, 3000000), (11, 94500000)]) := by
  refine ⟨?_, rfl, run_reachable 7 _ reissued reissued_reachable (by decide), ⟨_, rfl, rfl, rfl,
    rfl⟩, rfl, rfl, rfl⟩
  intro self auths s s' raffle_id shuffled out h
  obtain ⟨_, r, _, _, _, _, seat, hr, _, _, _, _, _, _, hseat, rfl, _⟩ := shuffle_ok h
  refine ⟨seat, { r with winner := some seat.account }, hseat, ?_, rfl⟩
  show raffle_find (raffle_modify _ _ _) _ = _
  rw [raffle_find_modify_eq, hr]
  · rfl
  · intro x; rfl

/-- C19: in a reachable store the keys under every scope of `seats.d` are
`0, ..., n - 1`, for the scope of a raffle with `n` at least its
`allocated_seats`; so for every draw below `allocated_seats` the row is found
and `shuffle` does not fail with "shuddled id does not exist". -/
theorem seat_lookup_cannot_miss (self : name) (s : State) (hs : Reachable self s) :
    (∀ scope, ∃ n, seats_keys s.seats scope = List.range n) ∧
    (∀ (raffle_id : Nat) (r : raffletb), raffle_find s.raffles raffle_id = some r →
      ∃ n, seats_keys s.seats raffle_id = List.range n ∧ r.allocated_seats ≤ n ∧
        ∀ shuffled, shuffled < r.allocated_seats →
          (∃ seat, seats_find s.seats raffle_id shuffled = some seat ∧ seat.id = shuffled) ∧
          ∀ auths, shuffle self auths s raffle_id shuffled ≠
            .error "shuddled id does not exist") := by
  have hd := reachable_dense hs
  refine ⟨fun scope => ⟨_, hd.keys scope⟩, ?_⟩
  intro raffle_id r hfind
  obtain ⟨hmem, hid⟩ := raffle_find_some hfind
  have hle := hd.allocated r hmem
  rw [hid] at hle
  refine ⟨_, hd.keys raffle_id, hle, ?_⟩
  intro shuffled hlt
  have hkey : shuffled ∈ seats_keys s.seats raffle_id := by
    rw [hd.keys raffle_id, List.mem_range]
    omega
  obtain ⟨seat, hseat, hsid⟩ := seats_find_of_mem_keys hkey
  refine ⟨⟨seat, hseat, hsid⟩, ?_⟩
  intro auths herr
  rw [shuffle_error_seat herr] at hseat
  cases hseat

/-- In the store `replayed` the scope of raffle 1 has the keys 0 and 1 and the
draw 0 finds a seat. -/
theorem seat_lookup_cannot_miss_witness :
    Reachable 7 replayed ∧
    ∃ n, seats_keys replayed.seats 1 = List.range n ∧ 1 ≤ n ∧
      ∀ shuffled, shuffled < 1 →
        (∃ seat, seats_find replayed.seats 1 shuffled = some seat ∧ seat.id = shuffled) ∧
        ∀ auths, shuffle 7 auths replayed 1 shuffled ≠ .error "shuddled id does not exist" :=
  have hreach : Reachable 7 replayed :=
    run_reachable 7 _ reissued reissued_reachable (by decide)
  ⟨hreach, (seat_lookup_cannot_miss 7 replayed hreach).2 1 _ rfl⟩

/-- C20: in a reachable store every row of `raffle.d` has
`require_max_seats_allocated = false`, so `shuffle` never fails with "seats are
not full allocated yet"; a draw on a raffle with `allocated_seats < seats` goes
through (in `funded`, one seat of two sold, it pays and records the winner), and
on a raffle without any seat it passes that check and stops at the seat
lookup. -/
theorem require_max_seats_never_set (self : name) (s : State) (hs : Reachable self s) :
    (∀ r ∈ s.raffles, r.require_max_seats_allocated = false) ∧
    (∀ (auths : List name) (raffle_id shuffled : Nat),
      shuffle self auths s raffle_id shuffled ≠ .error "seats are not full allocated yet") ∧
    (∃ r, raffle_find funded.raffles 1 = some r ∧ r.allocated_seats = 1 ∧ r.seats = 2 ∧
      (shuffle 7 [7] funded 1 0).map
          (fun p => raffle_find p.1.raffles 1 |>.map (fun r => r.winner)) =
        .ok (some (some 11))) ∧
    (∃ r, raffle_find fresh.raffles 1 = some r ∧ r.allocated_seats = 0 ∧ r.seats = 2 ∧
      shuffle 7 [7] fresh 1 0 = .error "shuddled id does not exist") := by
  refine ⟨fun r hr => ((reachable_valid hs).rows r hr).not_required, ?_, ⟨_, rfl, rfl, rfl, rfl⟩,
    ⟨_, rfl, rfl, rfl, rfl⟩⟩
  intro auths raffle_id shuffled herr
  obtain ⟨r, hr, hreq, _⟩ := shuffle_error_not_ready herr
  have hnot := ((reachable_valid hs).rows r (raffle_find_some hr).1).not_required
  rw [hnot] at hreq
  cases hreq

/-- The rows of `replayed` do not require a full allocation and a draw there is
not refused for missing seats. -/
theorem require_max_seats_never_set_witness :
    Reachable 7 replayed ∧
    (∀ r ∈ replayed.raffles, r.require_max_seats_allocated = false) ∧
    shuffle 7 [7] replayed 1 0 ≠ .error "seats are not full allocated yet" :=
  have hreach : Reachable 7 replayed :=
    run_reachable 7 _ reissued reissued_reachable (by decide)
  ⟨hreach, (require_max_seats_never_set 7 replayed hreach).1,
    (require_max_seats_never_set 7 replayed hreach).2.1 [7] 1 0⟩
theorem share_amount_bounds (f : Int) (bp : Nat) :
    -922337203685477 ≤ share_amount f bp ∧ share_amount f bp ≤ 922337203685477 := by
  unfold share_amount
  have h1 : -9223372036854775808 ≤ wrap64 (f * (bp : Int)) := by unfold wrap64; omega
  have h2 : wrap64 (f * (bp : Int)) < 9223372036854775808 := by unfold wrap64; omega
  generalize wrap64 (f * (bp : Int)) = x at h1 h2
  by_cases hx : 0 ≤ x
  · rw [Int.tdiv_eq_ediv hx (by decide)]
    omega
  · have hneg : 0 ≤ -x := by omega
    have h3 : x.tdiv 10000 = -((-x) / 10000) := by
      rw [← Int.tdiv_eq_ediv hneg (by decide), Int.neg_tdiv, neg_neg]
    rw [h3]
    omega

theorem shuffle_eq_ok {self : name} {auths : List name} {s : State} {raffle_id shuffled : Nat}
    {r : raffletb} {comission_to_pay smart_contract_fee_to_pay rest winner_pot : asset}
    {seat : seatstb} (hauth : has_auth auths self = true)
    (hfind : raffle_find s.raffles raffle_id = some r) (hw : r.winner = none)
    (hreq : ¬ (r.require_max_seats_allocated = true ∧ ¬ r.allocated_seats = r.seats))
    (hc : asset_new (share_amount r.funds.amount r.comission_basis_point)
      raffle_accepted_symbol = .ok comission_to_pay)
    (hp : asset_new (share_amount r.funds.amount contract_shares_basis_point)
      raffle_accepted_symbol = .ok smart_contract_fee_to_pay)
    (h1 : asset_sub r.funds comission_to_pay = .ok rest)
    (h2 : asset_sub rest smart_contract_fee_to_pay = .ok winner_pot)
    (hseat : seats_find s.seats raffle_id shuffled = some seat) :
    shuffle self auths s raffle_id shuffled =
      .ok ({ s with raffles := raffle_modify s.raffles raffle_id (fun r =>
               { r with winner := some seat.account }) },
           [ { from_ := self, to_ := r.comission_payer, quantity := comission_to_pay,
               memo := "[@uosloterry.raffle] comission shares" },
             { from_ := self, to_ := seat.account, quantity := winner_pot,
               memo := "[@uosloterry.raffle] winner shares" } ]) := by
  unfold shuffle
  rw [if_neg (not_not.mpr hauth)]
  simp only [hfind, hw, Option.isSome_none, Bool.false_eq_true, if_false, hreq, hc, hp, h1, h2,
    hseat]

theorem asset_new_eq_ok {a : Int} (sym : symbol) (h1 : -max_amount ≤ a) (h2 : a ≤ max_amount) :
    asset_new a sym = .ok { amount := a, symbol := sym } := by
  unfold asset_new is_amount_within_range
  simp only [h1, h2, decide_True, Bool.and_self, if_true]

theorem asset_sub_eq_ok (a b : asset) (hsym : b.symbol = a.symbol)
    (h1 : -max_amount ≤ a.amount - b.amount) (h2 : a.amount - b.amount ≤ max_amount) :
    asset_sub a b = .ok { a with amount := a.amount - b.amount } := by
  have hw : wrap64 (a.amount - b.amount) = a.amount - b.amount := by
    unfold max_amount at h1 h2
    exact wrap64_of_range (by omega) (by omega)
  simp only [asset_sub, hsym, not_true_eq_false, if_false, hw, h1, h2]
theorem shuffle_pays_exact_shares {self : name} {auths : List name} {s : State}
    {raffle_id shuffled : Nat} {r : raffletb} {seat : seatstb} (hs : Reachable self s)
    (hauth : has_auth auths self = true) (hfind : raffle_find s.raffles raffle_id = some r)
    (hw : r.winner = none) (hseat : seats_find s.seats raffle_id shuffled = some seat)
    (hf : 0 ≤ r.funds.amount)
    (hno : r.funds.amount * (r.comission_basis_point : Int) < 9223372036854775808) :
    shuffle self auths s raffle_id shuffled =
      .ok ({ s with raffles := raffle_modify s.raffles raffle_id (fun r =>
               { r with winner := some seat.account }) },
           [ { from_ := self, to_ := r.comission_payer,
               quantity := uos (r.funds.amount * (r.comission_basis_point : Int) / 10000),
               memo := "[@uosloterry.raffle] comission shares" },
             { from_ := self, to_ := seat.account,
               quantity := uos (r.funds.amount -
                 r.funds.amount * (r.comission_basis_point : Int) / 10000 -
                 r.funds.amount * 250 / 10000),
               memo := "[@uosloterry.raffle] winner shares" } ]) := by
  have hv := (reachable_valid hs).rows r (raffle_find_some hfind).1
  have hbp : (250 : Int) < (r.comission_basis_point : Int) := by
    have := hv.basis_point_gt
    omega
  have hle : r.funds.amount * 250 ≤ r.funds.amount * (r.comission_basis_point : Int) :=
    mul_le_mul_of_nonneg_left (le_of_lt hbp) hf
  have hc : share_amount r.funds.amount r.comission_basis_point =
      r.funds.amount * (r.comission_basis_point : Int) / 10000 :=
    share_amount_exact _ _ hf hno
  have hp : share_amount r.funds.amount contract_shares_basis_point =
      r.funds.amount * 250 / 10000 :=
    share_amount_exact _ 250 hf (lt_of_le_of_lt hle hno)
  have hx0 : 0 ≤ r.funds.amount * (r.comission_basis_point : Int) :=
    mul_nonneg hf (by omega)
  have hup := hv.funds_upper
  have hsym := hv.funds_symbol
  generalize r.funds.amount * (r.comission_basis_point : Int) = x at *
  unfold max_amount at hup
  have hreq : ¬ (r.require_max_seats_allocated = true ∧ ¬ r.allocated_seats = r.seats) := by
    rw [hv.not_required]
    intro h
    cases h.1
  have hfunds : r.funds = uos r.funds.amount := by
    cases hfe : r.funds with
    | mk amount sym =>
      rw [hfe] at hsym
      simp only [uos]
      simp only at hsym
      rw [hsym]
  have e1 : asset_new (share_amount r.funds.amount r.comission_basis_point)
      raffle_accepted_symbol = .ok (uos (x / 10000)) := by
    rw [hc]
    exact asset_new_eq_ok _ (by unfold max_amount; omega) (by unfold max_amount; omega)
  have e2 : asset_new (share_amount r.funds.amount contract_shares_basis_point)
      raffle_accepted_symbol = .ok (uos (r.funds.amount * 250 / 10000)) := by
    rw [hp]
    exact asset_new_eq_ok _ (by unfold max_amount; omega) (by unfold max_amount; omega)
  have e3 : asset_sub r.funds (uos (x / 10000)) = .ok (uos (r.funds.amount - x / 10000)) := by
    have h := asset_sub_eq_ok (uos r.funds.amount) (uos (x / 10000)) rfl
      (by unfold max_amount; show _ ≤ r.funds.amount - x / 10000; omega)
      (by unfold max_amount; show r.funds.amount - x / 10000 ≤ _; omega)
    rw [hfunds]
    exact h
  have e4 : asset_sub (uos (r.funds.amount - x / 10000)) (uos (r.funds.amount * 250 / 10000)) =
      .ok (uos (r.funds.amount - x / 10000 - r.funds.amount * 250 / 10000)) :=
    asset_sub_eq_ok (uos (r.funds.amount - x / 10000)) (uos (r.funds.amount * 250 / 10000)) rfl
      (by unfold max_amount
          show _ ≤ r.funds.amount - x / 10000 - r.funds.amount * 250 / 10000
          omega)
      (by unfold max_amount
          show r.funds.amount - x / 10000 - r.funds.amount * 250 / 10000 ≤ _
          omega)
  exact shuffle_eq_ok hauth hfind hw hreq e1 e2 e3 e4 hseat
theorem exec_shuffle_error {self : name} {auths : List name} {s : State}
    {raffle_id shuffled : Nat} {e : String}
    (h : shuffle self auths s raffle_id shuffled = .error e) :
    exec self s (.shuffle auths raffle_id shuffled) = s := by
  simp only [exec, dispatch, h]

/-- C14: in a reachable store, on a raffle without winner whose funds `f >= 0`
satisfy `f * comission_basis_point < 2^63`, and for a draw whose seat row exists,
`shuffle` with the authority of the contract succeeds, sends the commission to
`comission_payer` and then the winner pot to the account of the seat, sets the
winner to that account and changes nothing else; but the products are computed
in `int64_t`: in the reachable store `wrapped_pool` (funds `2^62 - 1`, 303 basis
points, seat 0 present) the commission wraps to a negative amount and `shuffle`
fails with "subtraction overflow". -/
theorem shuffle_pays_unless_product_wraps :
    (∀ (self : name) (auths : List name) (s : State) (raffle_id shuffled : Nat) (r : raffletb)
      (seat : seatstb), Reachable self s → has_auth auths self = true →
      raffle_find s.raffles raffle_id = some r → r.winner = none →
      seats_find s.seats raffle_id shuffled = some seat → 0 ≤ r.funds.amount →
      r.funds.amount * (r.comission_basis_point : Int) < 9223372036854775808 →
      ∃ s', shuffle self auths s raffle_id shuffled =
          .ok (s',
            [ { from_ := self, to_ := r.comission_payer,
                quantity := uos (r.funds.amount * (r.comission_basis_point : Int) / 10000),
                memo := "[@uosloterry.raffle] comission shares" },
              { from_ := self, to_ := seat.account,
                quantity := uos (r.funds.amount -
                  r.funds.amount * (r.comission_basis_point : Int) / 10000 -
                  r.funds.amount * 250 / 10000),
                memo := "[@uosloterry.raffle] winner shares" } ]) ∧
        raffle_find s'.raffles raffle_id = some { r with winner := some seat.account } ∧
        (∀ j, j ≠ raffle_id → raffle_find s'.raffles j = raffle_find s.raffles j) ∧
        s'.seats = s.seats) ∧
    Reachable 7 wrapped_pool ∧
    (∃ r, raffle_find wrapped_pool.raffles 1 = some r ∧ r.winner = none ∧
      r.allocated_seats = 1 ∧ r.funds.amount = 4611686018427387903 ∧
      r.comission_basis_point = 303) ∧
    seats_find wrapped_pool.seats 1 0 = some { id := 0, account := 11 } ∧
    share_amount 4611686018427387903 303 = -461168601842738 ∧
    shuffle 7 [7] wrapped_pool 1 0 = .error "subtraction overflow" := by
  refine ⟨?_, run_reachable 7 _ State.empty Reachable.init (by decide), ⟨_, rfl, rfl, rfl, rfl,
    rfl⟩, rfl, by decide, rfl⟩
  intro self auths s raffle_id shuffled r seat hs hauth hfind hw hseat hf hno
  refine ⟨_, shuffle_pays_exact_shares hs hauth hfind hw hseat hf hno, ?_, ?_, rfl⟩
  · show raffle_find (raffle_modify _ _ _) _ = _
    rw [raffle_find_modify_eq, hfind]
    · rfl
    · intro x; rfl
  · intro j hj
    show raffle_find (raffle_modify _ _ _) _ = _
    rw [raffle_find_modify_ne]
    · intro x; rfl
    · exact hj

/-- C15: `shuffle` with the authority of the contract fails, with no transfer
and the store left as it was, when the raffle is absent ("raffle id does not
exist"), when its winner is set ("this raffle already have a winner"), when
`require_max_seats_allocated` is set and `allocated_seats` differs from `seats`
("seats are not full allocated yet"), and when no seat row has the drawn key
(with "shuddled id does not exist" once the amounts are computed). -/
theorem shuffle_rejections (self : name) (auths : List name) (s : State)
    (raffle_id shuffled : Nat) (hauth : has_auth auths self = true) :
    (raffle_find s.raffles raffle_id = none →
      shuffle self auths s raffle_id shuffled = .error "raffle id does not exist") ∧
    (∀ r w, raffle_find s.raffles raffle_id = some r → r.winner = some w →
      shuffle self auths s raffle_id shuffled = .error "this raffle already have a winner") ∧
    (∀ r, raffle_find s.raffles raffle_id = some r → r.winner = none →
      r.require_max_seats_allocated = true → r.allocated_seats ≠ r.seats →
      shuffle self auths s raffle_id shuffled = .error "seats are not full allocated yet") ∧
    (seats_find s.seats raffle_id shuffled = none →
      ∃ e, shuffle self auths s raffle_id shuffled = .error e) ∧
    (∀ r comission_to_pay smart_contract_fee_to_pay rest winner_pot,
      raffle_find s.raffles raffle_id = some r → r.winner = none →
      ¬ (r.require_max_seats_allocated = true ∧ ¬ r.allocated_seats = r.seats) →
      asset_new (share_amount r.funds.amount r.comission_basis_point)
        raffle_accepted_symbol = .ok comission_to_pay →
      asset_new (share_amount r.funds.amount contract_shares_basis_point)
        raffle_accepted_symbol = .ok smart_contract_fee_to_pay →
      asset_sub r.funds comission_to_pay = .ok rest →
      asset_sub rest smart_contract_fee_to_pay = .ok winner_pot →
      seats_find s.seats raffle_id shuffled = none →
      shuffle self auths s raffle_id shuffled = .error "shuddled id does not exist") ∧
    (∀ e, shuffle self auths s raffle_id shuffled = .error e →
      exec self s (.shuffle auths raffle_id shuffled) = s ∧
      dispatch self s (.shuffle auths raffle_id shuffled) = .error e) := by
  refine ⟨?_, ?_, ?_, ?_, ?_, ?_⟩
  · intro hfind
    unfold shuffle
    simp only [hauth, not_true_eq_false, if_false, hfind]
  · intro r w hfind hw
    exact shuffle_resolved hauth hfind hw shuffled
  · intro r hfind hw hreq hne
    unfold shuffle
    simp only [hauth, not_true_eq_false, if_false, hfind, hw, Option.isSome_none,
      Bool.false_eq_true, hreq, hne, not_false_eq_true, and_self, if_true]
  · intro hseat
    cases hres : shuffle self auths s raffle_id shuffled with
    | error e => exact ⟨e, rfl⟩
    | ok p =>
      obtain ⟨s', out⟩ := p
      obtain ⟨_, _, _, _, _, _, seat, _, _, _, _, _, _, _, hfound, _, _⟩ := shuffle_ok hres
      rw [hseat] at hfound
      cases hfound
  · intro r c p rest pot hfind hw hreq hc hp h1 h2 hseat
    unfold shuffle
    rw [if_neg (not_not.mpr hauth)]
    simp only [hfind, hw, Option.isSome_none, Bool.false_eq_true, if_false, hreq, hc, hp, h1,
      h2, hseat]
  · intro e he
    exact ⟨exec_shuffle_error he, he⟩

/-- In `drawn` a second draw is refused, and in `fresh`, where no seat is
sold, the draw of key 0 is refused with "shuddled id does not exist". -/
theorem shuffle_rejections_witness :
    has_auth [7] 7 = true ∧
    shuffle 7 [7] drawn 1 0 = .error "this raffle already have a winner" ∧
    shuffle 7 [7] fresh 5 0 = .error "raffle id does not exist" ∧
    (seats_find fresh.seats 1 0 = none ∧ ∃ e, shuffle 7 [7] fresh 1 0 = .error e) :=
  ⟨rfl, (shuffle_rejections 7 [7] drawn 1 0 rfl).2.1 drawn_row 12 rfl rfl,
    (shuffle_rejections 7 [7] fresh 5 0 rfl).1 rfl,
    rfl, (shuffle_rejections 7 [7] fresh 1 0 rfl).2.2.2.1 rfl⟩
theorem asset_new_ok {a : Int} {sym : symbol} {x : asset} (h : asset_new a sym = .ok x) :
    x.amount = a ∧ x.symbol = sym := by
  unfold asset_new at h
  split_ifs at h
  cases h
  exact ⟨rfl, rfl⟩

/-- C16, the claim fails: in the reachable store `full_commission`, funds of
1.00000000 UOS at 10000 basis points, the winner pot is -0.02500000 UOS and
`shuffle` succeeds: it sends 1.00000000 UOS to the payer, requests the transfer of
the negative pot to account 11 and records 11 as the winner. -/
theorem negative_winner_pot_is_paid :
    Reachable 7 full_commission ∧
    (∃ r, raffle_find full_commission.raffles 1 = some r ∧ r.winner = none ∧
      r.funds.amount = 100000000 ∧ r.comission_basis_point = 10000) ∧
    (100000000 : Int) - 100000000 * 10000 / 10000 - 100000000 * 250 / 10000 = -2500000 ∧
    (shuffle 7 [7] full_commission 1 0).map
        (fun p => (raffle_find p.1.raffles 1 |>.map (fun r => r.winner),
          p.2.map (fun t => (t.to_, t.quantity.amount)))) =
      .ok (some (some 11), [(9, 100000000), (11, -2500000)]) :=
  ⟨run_reachable 7 _ State.empty Reachable.init (by decide), ⟨_, rfl, rfl, rfl, rfl⟩,
    by decide, rfl⟩

/-- C16, amended: in a reachable store, `shuffle` fails, with no transfer and
the store, the winner included, left as it was, on every raffle for which
`funds - commission` or `funds - commission - fee`, the shares being those
`shuffle` computes, is outside the range of an asset, from `-(2^62 - 1)` to
`2^62 - 1`. -/
theorem shuffle_fails_outside_asset_range (self : name) (auths : List name) (s : State)
    (raffle_id shuffled : Nat) (r : raffletb) (hs : Reachable self s)
    (hfind : raffle_find s.raffles raffle_id = some r)
    (hout :
      r.funds.amount - share_amount r.funds.amount r.comission_basis_point < -max_amount ∨
      max_amount < r.funds.amount - share_amount r.funds.amount r.comission_basis_point ∨
      r.funds.amount - share_amount r.funds.amount r.comission_basis_point -
        share_amount r.funds.amount contract_shares_basis_point < -max_amount ∨
      max_amount < r.funds.amount - share_amount r.funds.amount r.comission_basis_point -
        share_amount r.funds.amount contract_shares_basis_point) :
    (∃ e, shuffle self auths s raffle_id shuffled = .error e) ∧
    dispatch self s (.shuffle auths raffle_id shuffled) =
      shuffle self auths s raffle_id shuffled ∧
    exec self s (.shuffle auths raffle_id shuffled) = s := by
  have hv := (reachable_valid hs).rows r (raffle_find_some hfind).1
  have herr : ∃ e, shuffle self auths s raffle_id shuffled = .error e := by
    cases hres : shuffle self auths s raffle_id shuffled with
    | error e => exact ⟨e, rfl⟩
    | ok p =>
      exfalso
      obtain ⟨s', out⟩ := p
      obtain ⟨_, r0, c, fee, rest, pot, seat, hr0, _, _, hc, hp, h1, h2, _, _, _⟩ :=
        shuffle_ok hres
      rw [hfind] at hr0
      cases hr0
      obtain ⟨hca, _⟩ := asset_new_ok hc
      obtain ⟨hpa, _⟩ := asset_new_ok hp
      obtain ⟨_, _, hrest, hlo1, hhi1⟩ := asset_sub_ok h1
      obtain ⟨_, _, hpot, hlo2, hhi2⟩ := asset_sub_ok h2
      obtain ⟨hcl, hcu⟩ := share_amount_bounds r.funds.amount r.comission_basis_point
      obtain ⟨hpl, hpu⟩ := share_amount_bounds r.funds.amount contract_shares_basis_point
      have hfl := hv.funds_lower
      have hfu := hv.funds_upper
      rw [hpot] at hlo2 hhi2
      rw [hrest] at hlo1 hhi1 hlo2 hhi2
      rw [hca] at hlo1 hhi1 hlo2 hhi2
      rw [hpa] at hlo2 hhi2
      generalize share_amount r.funds.amount r.comission_basis_point = cv at *
      generalize share_amount r.funds.amount contract_shares_basis_point = pv at *
      unfold max_amount at *
      unfold wrap64 at *
      omega
  obtain ⟨e, he⟩ := herr
  exact ⟨⟨e, he⟩, rfl, exec_shuffle_error he⟩

/-- In `wrapped_pool` the commission wraps to -461168601842738, the funds less
the commission exceed `2^62 - 1` and `shuffle` fails. -/
theorem shuffle_fails_outside_asset_range_witness :
    Reachable 7 wrapped_pool ∧
    (∃ r, raffle_find wrapped_pool.raffles 1 = some r ∧
      max_amount < r.funds.amount - share_amount r.funds.amount r.comission_basis_point) ∧
    (∃ e, shuffle 7 [7] wrapped_pool 1 0 = .error e) ∧
    exec 7 wrapped_pool (.shuffle [7] 1 0) = wrapped_pool :=
  have hreach : Reachable 7 wrapped_pool :=
    run_reachable 7 _ State.empty Reachable.init (by decide)
  have h := shuffle_fails_outside_asset_range 7 [7] wrapped_pool 1 0
    { id := 1, seats := 2, allocated_seats := 1, seat_price := uos 1,
      require_max_seats_allocated := false, comission_basis_point := 303, comission_payer := 9,
      funds := uos 4611686018427387903, winner := none }
    hreach rfl (Or.inr (Or.inl (by decide)))
  ⟨hreach, ⟨_, rfl, by decide⟩, h.1, h.2.2⟩

/-- C17, the claim fails: `create` accepts a commission of 10000 basis points,
for which `comission_basis_point + 250 > 10000`, and for the funds of
1.00000000 UOS that one deposit gives that raffle the winner pot `shuffle`
computes is -0.02500000 UOS. -/
theorem create_accepts_full_commission :
    create 7 [7] State.empty 2 (uos 100000000) 10000 9 =
      .ok { raffles := [created_row 1 2 (uos 100000000) 10000 9], seats := [] } ∧
    10000 + contract_shares_basis_point > 10000 ∧
    Reachable 7 full_commission ∧
    (∃ r, raffle_find full_commission.raffles 1 = some r ∧ r.funds.amount = 100000000 ∧
      r.comission_basis_point = 10000) ∧
    (100000000 : Int) - share_amount 100000000 10000 -
      share_amount 100000000 contract_shares_basis_point = -2500000 :=
  ⟨rfl, by decide, run_reachable 7 _ State.empty Reachable.init (by decide), ⟨_, rfl, rfl, rfl⟩,
    by decide⟩

/-- C17, amended: for a raffle stored by a successful `create` whose rate
satisfies `comission_basis_point + 250 <= 10000`, and for funds `f >= 0` with
`f * comission_basis_point < 2^63`, the winner pot `shuffle` computes is not
negative. -/
theorem winner_pot_nonneg_below_full_rate (self : name) (auths : List name) (s s' : State)
    (seats : Nat) (seat_price : asset) (comission_basis_point : Nat) (comission_payer : name)
    (f : Int)
    (h : create self auths s seats seat_price comission_basis_point comission_payer = .ok s')
    (hbp : comission_basis_point + contract_shares_basis_point ≤ 10000) (hf : 0 ≤ f)
    (hno : f * (comission_basis_point : Int) < 9223372036854775808) :
    0 ≤ f - share_amount f comission_basis_point -
      share_amount f contract_shares_basis_point := by
  obtain ⟨_, _, _, hgt, _⟩ := create_ok h
  unfold contract_shares_basis_point at hbp
  have h250 : (250 : Int) < (comission_basis_point : Int) := by omega
  have h9750 : (comission_basis_point : Int) ≤ 9750 := by omega
  have hle : f * 250 ≤ f * (comission_basis_point : Int) :=
    mul_le_mul_of_nonneg_left (le_of_lt h250) hf
  have hle2 : f * (comission_basis_point : Int) ≤ f * 9750 :=
    mul_le_mul_of_nonneg_left h9750 hf
  have hx0 : 0 ≤ f * (comission_basis_point : Int) := mul_nonneg hf (by omega)
  rw [share_amount_exact f comission_basis_point hf hno,
    share_amount_exact f contract_shares_basis_point hf (lt_of_le_of_lt hle hno)]
  show 0 ≤ f - f * (comission_basis_point : Int) / 10000 - f * ((250 : Nat) : Int) / 10000
  generalize f * (comission_basis_point : Int) = x at *
  push_cast
  omega

/-- The raffle of `fresh`, created at 300 basis points, leaves a pot of
1.89000000 UOS out of funds of 2.00000000 UOS. -/
theorem winner_pot_nonneg_below_full_rate_witness :
    create 7 [7] State.empty 2 (uos 100000000) 300 9 = .ok fresh ∧
    300 + contract_shares_basis_point ≤ 10000 ∧
    (0 : Int) ≤ 200000000 ∧ (200000000 : Int) * ((300 : Nat) : Int) < 9223372036854775808 ∧
    (0 : Int) ≤ 200000000 - share_amount 200000000 300 -
      share_amount 200000000 contract_shares_basis_point :=
  ⟨rfl, by decide, by decide, by decide,
    winner_pot_nonneg_below_full_rate 7 [7] State.empty fresh 2 (uos 100000000) 300 9 200000000
      rfl (by decide) (by decide) (by decide)⟩
end raffle
